import Mathlib

/-!
Shallow embedding of the CityBike analytics engine — the cleaning pipeline of
`BikeShareSystem.clean_data` and the analytics queries (src/analyzer.py),
the numerical routines (src/numerical.py) and the pricing strategies
(src/pricing.py) — together with theorems checking the repository's
specification against the embedded code.

Modelling conventions:
* Strings are modelled as lists of Unicode code points (`Txt := List Nat`);
  `str.lower()` / `str.strip()` are modelled on the ASCII range.
* pandas timestamps are modelled as integer epoch seconds (`Int`); a `NaT`
  produced by `pd.to_datetime(..., errors="coerce")` is `Option.none`.
* Numeric (float) columns are modelled as rationals; a missing value (`NaN`,
  including the result of a failed `pd.to_numeric`) is `Option.none`.
* A missing text cell that `astype(str)` turns into the literal string
  `"nan"` is modelled as that text; text columns that are never passed
  through `astype(str)` keep missing cells as `Option.none`.
* pandas `Series.value_counts` counts keys in order of first appearance and
  sorts by count descending with a stable sort; `DataFrame.groupby` with the
  default `sort=True` sorts the group keys; `sort_values` is modelled as a
  stable sort (the deterministic behaviour of numpy's sort on the tied
  ranges the spec talks about).
-/

namespace CityBike

/-- A text value: the list of Unicode code points of the string. -/
abbrev Txt := List Nat

end CityBike

/-- Code points of a string literal, for writing concrete `Txt` values. -/
def String.toTxt (s : String) : CityBike.Txt := s.data.map Char.toNat

namespace CityBike

/-! ### Text normalisation (`.astype(str).str.lower().str.strip()`) -/

/-- ASCII lower-casing of one code point (`str.lower()`). -/
def lowC (n : Nat) : Nat := if 65 ≤ n ∧ n ≤ 90 then n + 32 else n

/-- ASCII whitespace test used by `str.strip()`. -/
def wsC (n : Nat) : Bool := n == 32 || n == 9 || n == 10 || n == 11 || n == 12 || n == 13

/-- Remove leading whitespace. -/
def trimStart (l : Txt) : Txt := l.dropWhile wsC

/-- Remove trailing whitespace. -/
def trimEnd (l : Txt) : Txt := (l.reverse.dropWhile wsC).reverse

/-- `str.strip()`: remove leading and trailing whitespace. -/
def trimTxt (l : Txt) : Txt := trimEnd (trimStart l)

/-- `.str.lower().str.strip()` as applied by `clean_data` to categorical
text columns. -/
def canon (l : Txt) : Txt := trimTxt (l.map lowC)

/-! ### Deduplication by key (`drop_duplicates(subset=[key])`, first wins) -/

def dedupByAux {α κ : Type} [DecidableEq κ] (key : α → κ) : List κ → List α → List α
  | _, [] => []
  | seen, x :: xs =>
    if key x ∈ seen then dedupByAux key seen xs
    else x :: dedupByAux key (key x :: seen) xs

/-- `drop_duplicates(subset=[key])`: keep the first occurrence of each key. -/
def dedupBy {α κ : Type} [DecidableEq κ] (key : α → κ) (l : List α) : List α :=
  dedupByAux key [] l

/-! ### Stable sorting (numpy/pandas sorts), median, mode -/

/-- Insert `x` before the first already-placed element that must come
strictly after it; ties keep the already-placed element first. -/
def insBy {α : Type} (lt : α → α → Bool) (x : α) : List α → List α
  | [] => [x]
  | y :: ys => if lt x y then x :: y :: ys else y :: insBy lt x ys

/-- Stable sort by the strict order `lt`: elements are processed left to
right, so elements the order does not separate keep their input order. -/
def stableSortBy {α : Type} (lt : α → α → Bool) (l : List α) : List α :=
  l.foldl (fun acc x => insBy lt x acc) []

/-- Stable sort by a count, descending (`sort_values(ascending=False)` /
the sort inside `value_counts`). -/
def sortDescBy {α : Type} (cnt : α → Nat) (l : List α) : List α :=
  stableSortBy (fun a b => cnt b < cnt a) l

/-! ### Median (pandas `Series.median`) and mode (`Series.mode`) -/

def insAscQ (x : ℚ) : List ℚ → List ℚ
  | [] => [x]
  | y :: ys => if x ≤ y then x :: y :: ys else y :: insAscQ x ys

def sortAscQ (l : List ℚ) : List ℚ := l.foldr insAscQ []

/-- `Series.median()` over the non-missing values: the middle element of
the sorted values, or the mean of the two middle elements; `None` (pandas
`NaN`) on an empty sequence. -/
def medianQ (l : List ℚ) : Option ℚ :=
  let s := sortAscQ l
  let n := s.length
  if n = 0 then none
  else if n % 2 = 1 then s[n / 2]?
  else match s[n / 2 - 1]?, s[n / 2]? with
       | some a, some b => some ((a + b) / 2)
       | _, _ => none

/-- Lexicographic order on text (Python string `<`). -/
def txtLt : Txt → Txt → Bool
  | [], [] => false
  | [], _ :: _ => true
  | _ :: _, [] => false
  | a :: as, b :: bs => if a < b then true else if b < a then false else txtLt as bs

def txtMinOf (x : Txt) (l : List Txt) : Txt :=
  l.foldl (fun m y => if txtLt y m then y else m) x

/-- `Series.mode(dropna=True)` followed by `.iloc[0]`: the lexicographically
smallest among the most frequent values (pandas returns the modes sorted);
`none` when the sequence is empty. -/
def modeTxt (l : List Txt) : Option Txt :=
  let cands := dedupBy id l
  let maxc := cands.foldr (fun s m => max (l.count s) m) 0
  match cands.filter (fun s => l.count s == maxc) with
  | [] => none
  | x :: xs => some (txtMinOf x xs)

/-! ### Data model: raw table rows as held after `load_data` and type
coercion (`pd.to_datetime` / `pd.to_numeric` with `errors="coerce"`) -/

/-- A trip row.  The categorical columns pass through `astype(str)` in
`clean_data`, so they are plain text (a missing cell is the text "nan");
timestamps and numeric columns are `Option`, `none` being `NaT`/`NaN`. -/
structure RawTrip where
  trip_id : Txt
  user_id : Txt
  user_type : Txt
  bike_id : Txt
  bike_type : Txt
  start_station_id : Txt
  end_station_id : Txt
  start_time : Option Int
  end_time : Option Int
  duration_minutes : Option ℚ
  distance_km : Option ℚ
  status : Txt
  deriving DecidableEq

/-- A station row; every referenced column may be missing. -/
structure RawStation where
  station_id : Option Txt
  station_name : Option Txt
  capacity : Option Int
  latitude : Option ℚ
  longitude : Option ℚ
  deriving DecidableEq

/-- A maintenance row; `bike_type` and `maintenance_type` pass through
`astype(str)`, the other referenced columns may be missing. -/
structure RawMaint where
  record_id : Option Txt
  bike_id : Option Txt
  bike_type : Txt
  date : Option Int
  maintenance_type : Txt
  cost : Option ℚ
  deriving DecidableEq

def casualT : Txt := "casual".toTxt

def memberT : Txt := "member".toTxt

def classicT : Txt := "classic".toTxt

def electricT : Txt := "electric".toTxt

def completedT : Txt := "completed".toTxt

def cancelledT : Txt := "cancelled".toTxt

/-- The missing-like status sentinels `clean_data` maps to `NaN` (line 58). -/
def statusSentinels : List Txt := ["nan".toTxt, "none".toTxt, "".toTxt]

/-! ### `clean_data`, trips part (src/analyzer.py lines 46–76) -/

/-- Normalisation of the categorical trip columns (lines 54–56). -/
def tripNormalize (t : RawTrip) : RawTrip :=
  { t with user_type := canon t.user_type, bike_type := canon t.bike_type,
           status := canon t.status }

/-- The trips table after dedup by `trip_id` (line 46) and normalisation. -/
def tripsNormed (raw : List RawTrip) : List RawTrip :=
  (dedupBy RawTrip.trip_id raw).map tripNormalize

/-- Fill value for a missing status (lines 59–60): the modal status among
the non-sentinel statuses, defaulting to "completed". -/
def statusFill (l : List RawTrip) : Txt :=
  (modeTxt ((l.map RawTrip.status).filter
    (fun s => decide (s ∉ statusSentinels)))).getD completedT

/-- Replace a sentinel status by the fill value (lines 58 and 61), one row. -/
def statusFillRow (fill : Txt) (t : RawTrip) : RawTrip :=
  if t.status ∈ statusSentinels then { t with status := fill } else t

/-- Replace sentinel statuses by the fill value (lines 58 and 61). -/
def tripStatusFilled (l : List RawTrip) : List RawTrip :=
  l.map (statusFillRow (statusFill l))

/-- Median imputation of missing duration and distance, one row. -/
def numFillRow (durMed distMed : Option ℚ) (t : RawTrip) : RawTrip :=
  { t with duration_minutes := t.duration_minutes.orElse (fun _ => durMed),
           distance_km := t.distance_km.orElse (fun _ => distMed) }

/-- Median imputation of missing duration and distance (lines 63–64); the
medians are those of the current columns, missing values ignored. -/
def tripNumFilled (l : List RawTrip) : List RawTrip :=
  l.map (numFillRow (medianQ (l.filterMap RawTrip.duration_minutes))
    (medianQ (l.filterMap RawTrip.distance_km)))

/-- `dropna(subset=["start_time", "end_time"])` (line 66). -/
def tripDropnaTimes (t : RawTrip) : Bool := t.start_time.isSome && t.end_time.isSome

/-- `end_time >= start_time` (line 67); comparisons with `NaT` are false. -/
def tripEndGeStart (t : RawTrip) : Bool :=
  match t.start_time, t.end_time with
  | some s, some e => s ≤ e
  | _, _ => false

/-- `duration_minutes >= 0` (line 68); comparisons with `NaN` are false. -/
def tripDurNonneg (t : RawTrip) : Bool :=
  match t.duration_minutes with
  | some d => 0 ≤ d
  | none => false

/-- `distance_km >= 0` (line 69). -/
def tripDistNonneg (t : RawTrip) : Bool :=
  match t.distance_km with
  | some d => 0 ≤ d
  | none => false

/-- `user_type.isin(["casual", "member"])` (line 71). -/
def tripUserTypeOk (t : RawTrip) : Bool := decide (t.user_type ∈ [casualT, memberT])

/-- `bike_type.isin(["classic", "electric"])` (line 72). -/
def tripBikeTypeOk (t : RawTrip) : Bool := decide (t.bike_type ∈ [classicT, electricT])

/-- `status.isin(["completed", "cancelled"])` (line 73). -/
def tripStatusOk (t : RawTrip) : Bool := decide (t.status ∈ [completedT, cancelledT])

/-- Recompute `duration_minutes` from the timestamps, in minutes, clipped
at 0 (lines 75–76). -/
def tripRecompute (t : RawTrip) : RawTrip :=
  match t.start_time, t.end_time with
  | some s, some e => { t with duration_minutes := some (max 0 (((e - s : Int) : ℚ) / 60)) }
  | _, _ => t

/-- `clean_data`, trips part: dedup, normalise, impute, filter, recompute
(src/analyzer.py lines 46–76, the filters in the source's statement order). -/
def tripsClean (raw : List RawTrip) : List RawTrip :=
  ((((((((tripNumFilled (tripStatusFilled (tripsNormed raw))).filter
    tripDropnaTimes).filter tripEndGeStart).filter tripDurNonneg).filter
    tripDistNonneg).filter tripUserTypeOk).filter tripBikeTypeOk).filter
    tripStatusOk).map tripRecompute

/-! ### `clean_data`, stations part (src/analyzer.py lines 79–85) -/

/-- `dropna(subset=[station_id, station_name, capacity, latitude,
longitude])` (line 83). -/
def stationDropna (s : RawStation) : Bool :=
  s.station_id.isSome && s.station_name.isSome && s.capacity.isSome &&
    s.latitude.isSome && s.longitude.isSome

/-- `capacity > 0` (line 84). -/
def stationCapPos (s : RawStation) : Bool :=
  match s.capacity with
  | some c => 0 < c
  | none => false

/-- `latitude.between(-90, 90) & longitude.between(-180, 180)` (line 85). -/
def stationCoordsOk (s : RawStation) : Bool :=
  match s.latitude, s.longitude with
  | some la, some lo => decide (-90 ≤ la) && decide (la ≤ 90) &&
      decide (-180 ≤ lo) && decide (lo ≤ 180)
  | _, _ => false

/-- `clean_data`, stations part (lines 79–85). -/
def stationsClean (raw : List RawStation) : List RawStation :=
  (((dedupBy RawStation.station_id raw).filter stationDropna).filter stationCapPos).filter
    stationCoordsOk

/-! ### `clean_data`, maintenance part (src/analyzer.py lines 88–98) -/

/-- Normalisation of the categorical maintenance columns (lines 91–92). -/
def maintNormalize (r : RawMaint) : RawMaint :=
  { r with bike_type := canon r.bike_type, maintenance_type := canon r.maintenance_type }

/-- `dropna(subset=["record_id", "bike_id", "bike_type", "date",
"maintenance_type"])` (line 93); `bike_type` and `maintenance_type` went
through `astype(str)` and can no longer be missing. -/
def maintDropna (r : RawMaint) : Bool :=
  r.record_id.isSome && r.bike_id.isSome && r.date.isSome

/-- `bike_type.isin(["classic", "electric"])` (line 94). -/
def maintBikeTypeOk (r : RawMaint) : Bool := decide (r.bike_type ∈ [classicT, electricT])

/-- The maintenance table before cost imputation (lines 88–94). -/
def maintPrefill (raw : List RawMaint) : List RawMaint :=
  (((dedupBy RawMaint.record_id raw).map maintNormalize).filter maintDropna).filter
    maintBikeTypeOk

/-- The non-missing costs of the `bike_type` group `bt` (line 97). -/
def groupCosts (tbl : List RawMaint) (bt : Txt) : List ℚ :=
  (tbl.filter (fun s => s.bike_type == bt)).filterMap RawMaint.cost

/-- Cost imputation (lines 96–98): a missing cost is filled by the median
of its `bike_type` group; a cost still missing afterwards is filled by the
overall median of the pre-imputation cost column (`overall_med`, line 96). -/
def costFill (tbl : List RawMaint) (r : RawMaint) : RawMaint :=
  let grouped := r.cost.orElse (fun _ => medianQ (groupCosts tbl r.bike_type))
  { r with cost := grouped.orElse (fun _ => medianQ (tbl.filterMap RawMaint.cost)) }

/-- `clean_data`, maintenance part (lines 88–98). -/
def maintClean (raw : List RawMaint) : List RawMaint :=
  (maintPrefill raw).map (costFill (maintPrefill raw))

/-! ### src/numerical.py -/

def listSumQ (l : List ℚ) : ℚ := l.foldr (fun a b => a + b) 0

/-- `np.mean`. -/
def meanQ (l : List ℚ) : ℚ := listSumQ l / l.length

/-- The population variance `np.std(v) ** 2`.  The source compares
`np.std(v) == 0.0` and thresholds `|z| = |v - mean| / std`; the square
root of a rational is not rational, so the embedding carries the variance
and phrases both tests through squares: `std == 0` iff `var == 0`, and for
`0 ≤ t`, `|z| ≥ t` iff `(x - mean)² ≥ t² · var` (while for `t < 0` the
test `|z| ≥ t` is vacuously true). -/
def varQ (l : List ℚ) : ℚ := meanQ (l.map (fun x => (x - meanQ l) ^ 2))

/-- `detect_outliers_zscore` (src/numerical.py lines 30–38). -/
def detect_outliers_zscore (values : List ℚ) (threshold : ℚ) : List Bool :=
  if varQ values = 0 then values.map (fun _ => false)
  else values.map (fun x =>
    decide (threshold ≤ 0) || decide (threshold ^ 2 * varQ values ≤ (x - meanQ values) ^ 2))

/-- `calculate_fares` (src/numerical.py lines 41–51): elementwise
`unlock_fee + per_minute * duration + per_km * distance`. -/
def calculate_fares (durations distances : List ℚ) (per_minute per_km unlock_fee : ℚ) :
    List ℚ :=
  List.zipWith (fun d k => unlock_fee + per_minute * d + per_km * k) durations distances

/-! ### src/pricing.py -/

def CasualPricing.UNLOCK_FEE : ℚ := 1

def CasualPricing.PER_MINUTE : ℚ := 15 / 100

def CasualPricing.PER_KM : ℚ := 10 / 100

/-- `CasualPricing.calculate_cost` (src/pricing.py lines 22–23). -/
def CasualPricing.calculate_cost (duration_minutes distance_km : ℚ) : ℚ :=
  CasualPricing.UNLOCK_FEE + CasualPricing.PER_MINUTE * duration_minutes +
    CasualPricing.PER_KM * distance_km

def MemberPricing.PER_MINUTE : ℚ := 8 / 100

def MemberPricing.PER_KM : ℚ := 5 / 100

/-- `MemberPricing.calculate_cost` (src/pricing.py lines 31–32). -/
def MemberPricing.calculate_cost (duration_minutes distance_km : ℚ) : ℚ :=
  MemberPricing.PER_MINUTE * duration_minutes + MemberPricing.PER_KM * distance_km

def PeakHourPricing.MULTIPLIER : ℚ := 15 / 10

/-- `PeakHourPricing.calculate_cost` (src/pricing.py lines 42–43). -/
def PeakHourPricing.calculate_cost (duration_minutes distance_km : ℚ) : ℚ :=
  PeakHourPricing.MULTIPLIER * CasualPricing.calculate_cost duration_minutes distance_km

/-! ### Analytics queries (src/analyzer.py lines 109–232), pure parts -/

/-- `df["duration_minutes"].sum()` (`Series.sum` skips `NaN`). -/
def totalUsedMinutes (df : List RawTrip) : ℚ :=
  listSumQ (df.filterMap RawTrip.duration_minutes)

/-- `df["bike_id"].nunique()`. -/
def numBikes (df : List RawTrip) : Nat := (dedupBy id (df.map RawTrip.bike_id)).length

/-- `(df["end_time"].max() - df["start_time"].min()).total_seconds() / 60.0`;
`none` is the `NaN` this produces when a bound is `NaT` (empty column). -/
def windowMinutes (df : List RawTrip) : Option ℚ :=
  match (df.filterMap RawTrip.end_time).max?, (df.filterMap RawTrip.start_time).min? with
  | some e, some s => some (((e - s : Int) : ℚ) / 60)
  | _, _ => none

/-- `bike_utilization_rate` (src/analyzer.py lines 141–148).  The guard
`num_bikes == 0 or window_minutes <= 0` returns 0.0 (a comparison with a
`NaN` window is false, and a `NaN` window with bikes present propagates as
`none`); otherwise the ratio is taken with a nonzero denominator. -/
def bike_utilization_rate_of (df : List RawTrip) : Option ℚ :=
  if numBikes df = 0 then some 0
  else match windowMinutes df with
       | some w =>
         if w ≤ 0 then some 0 else some (totalUsedMinutes df / (numBikes df * w))
       | none => none

/-- `Series.value_counts()`: distinct keys with their counts, by count
descending, ties in order of first appearance (stable sort). -/
def valueCounts (l : List Txt) : List (Txt × Nat) :=
  sortDescBy Prod.snd ((dedupBy id l).map (fun k => (k, l.count k)))

/-- The left-merge with `stations[["station_id", "station_name"]]`
(line 121): left row order kept, an unmatched left row gets a missing
name, each matching right row yields one output row. -/
def mergeStationName (counts : List (Txt × Nat)) (stations : List RawStation) :
    List (Txt × Nat × Option Txt) :=
  counts.flatMap (fun kc =>
    match stations.filter (fun s => s.station_id == some kc.1) with
    | [] => [(kc.1, kc.2, none)]
    | ms => ms.map (fun s => (kc.1, kc.2, s.station_name)))

/-- `top_start_stations` (src/analyzer.py lines 117–121). -/
def top_start_stations_of (trips : List RawTrip) (stations : List RawStation) (n : Nat) :
    List (Txt × Nat × Option Txt) :=
  mergeStationName ((valueCounts (trips.map RawTrip.start_station_id)).take n) stations

/-- Ascending order on the `(user_id, user_type)` group key. -/
def userKeyLt (a b : Txt × Txt) : Bool :=
  txtLt a.1 b.1 || (a.1 == b.1 && txtLt a.2 b.2)

/-- `groupby(["user_id", "user_type"])["trip_id"].count()` (line 156):
distinct keys sorted ascending (`sort=True` is the groupby default), with
the per-group row count. -/
def userGroups (trips : List RawTrip) : List (Txt × Txt × Nat) :=
  (stableSortBy userKeyLt (dedupBy id (trips.map (fun t => (t.user_id, t.user_type))))).map
    (fun k =>
      (k.1, k.2, (trips.filter (fun t => t.user_id == k.1 && t.user_type == k.2)).length))

/-- `top_active_users` (src/analyzer.py lines 154–157). -/
def top_active_users_of (trips : List RawTrip) (n : Nat) : List (Txt × Txt × Nat) :=
  (sortDescBy (fun r => r.2.2) (userGroups trips)).take n

/-- numpy/pandas `round` to an integer: round half to even. -/
def roundHalfEven (q : ℚ) : Int :=
  let f := Rat.floor q
  let r := q - f
  if r < 1 / 2 then f else if 1 / 2 < r then f + 1 else if f % 2 = 0 then f else f + 1

/-- `round(x, 2)`. -/
def round2 (q : ℚ) : ℚ := (roundHalfEven (q * 100) : ℚ) / 100

/-- `total_trips_summary` (src/analyzer.py lines 109–115): row count, total
distance rounded to 2 decimals, mean duration rounded to 2 decimals (the
mean of an empty column is `NaN`). -/
def total_trips_summary_of (df : List RawTrip) : Nat × ℚ × Option ℚ :=
  let dists := df.filterMap RawTrip.distance_km
  let durs := df.filterMap RawTrip.duration_minutes
  (df.length, round2 (listSumQ dists),
    if durs.length = 0 then none else some (round2 (meanQ durs)))

/-- The z-score mask of `outlier_trips` on a column that may hold `NaN`:
any `NaN` poisons `np.mean`/`np.std`, `NaN == 0.0` is false, and every
comparison against a `NaN` z-score is false, so the mask is all false. -/
def detectOutliersCol (col : List (Option ℚ)) (threshold : ℚ) : List Bool :=
  if col.any (fun o => o.isNone) then col.map (fun _ => false)
  else detect_outliers_zscore (col.filterMap id) threshold

/-- One row of the `outlier_trips` report (lines 212–213). -/
structure OutlierRow where
  trip_id : Txt
  duration_minutes : Option ℚ
  distance_km : Option ℚ
  user_type : Txt
  status : Txt
  outlier_reason : Txt
  deriving DecidableEq

def reasonBoth : Txt := "duration+distance".toTxt

def reasonDur : Txt := "duration".toTxt

def reasonDist : Txt := "distance".toTxt

/-- The report's sort order (line 214): reason ascending, duration
descending, missing durations last. -/
def outlierLt (a b : OutlierRow) : Bool :=
  txtLt a.outlier_reason b.outlier_reason ||
    (a.outlier_reason == b.outlier_reason &&
      match a.duration_minutes, b.duration_minutes with
      | some x, some y => decide (y < x)
      | some _, none => true
      | _, _ => false)

/-- `outlier_trips` (src/analyzer.py lines 200–214). -/
def outlier_trips_of (df : List RawTrip) (threshold : ℚ) : List OutlierRow :=
  let maskDur := detectOutliersCol (df.map RawTrip.duration_minutes) threshold
  let maskDist := detectOutliersCol (df.map RawTrip.distance_km) threshold
  let rows := (df.zip (maskDur.zip maskDist)).filterMap (fun p =>
    if p.2.1 || p.2.2 then
      some { trip_id := p.1.trip_id, duration_minutes := p.1.duration_minutes,
             distance_km := p.1.distance_km, user_type := p.1.user_type,
             status := p.1.status,
             outlier_reason :=
               if p.2.1 && p.2.2 then reasonBoth
               else if p.2.1 then reasonDur else reasonDist }
    else none)
  stableSortBy outlierLt rows

/-- The fare sum of one user segment (lines 222–231); a missing duration or
distance in the segment poisons `np.sum` into `NaN`. -/
def segmentRevenue (sub : List RawTrip) (per_minute per_km unlock_fee : ℚ) : Option ℚ :=
  if sub.any (fun t => t.duration_minutes.isNone || t.distance_km.isNone) then none
  else some (listSumQ (calculate_fares (sub.filterMap RawTrip.duration_minutes)
    (sub.filterMap RawTrip.distance_km) per_minute per_km unlock_fee))

/-- `revenue_by_user_type` (src/analyzer.py lines 216–232): the casual and
member segment revenues, rounded to 2 decimals. -/
def revenue_by_user_type_of (df : List RawTrip) : Option ℚ × Option ℚ :=
  let casual := segmentRevenue (df.filter (fun t => t.user_type == casualT))
      CasualPricing.PER_MINUTE CasualPricing.PER_KM CasualPricing.UNLOCK_FEE
  let member := segmentRevenue (df.filter (fun t => t.user_type == memberT))
      MemberPricing.PER_MINUTE MemberPricing.PER_KM 0
  (casual.map round2, member.map round2)

/-! ### The `BikeShareSystem` object and the query preconditions -/

/-- The state of a `BikeShareSystem` instance: its three optional
DataFrame attributes (`None` until `load_data`, lines 19–22). -/
structure SysState where
  trips : Option (List RawTrip)
  stations : Option (List RawStation)
  maintenance : Option (List RawMaint)
  deriving DecidableEq

/-- `__init__` (lines 19–22). -/
def initSys : SysState := ⟨none, none, none⟩

/-- `load_data` (lines 24–27), the parsed file contents being supplied by
the external I/O layer. -/
def load_data (t : List RawTrip) (s : List RawStation) (m : List RawMaint)
    (_st : SysState) : SysState :=
  ⟨some t, some s, some m⟩

/-- `clean_data` (lines 36–105): precondition check, then replacement of
the three attributes with their cleaned versions. -/
def clean_data (st : SysState) : Except String SysState :=
  match st.trips, st.stations, st.maintenance with
  | some t, some s, some m =>
    .ok ⟨some (tripsClean t), some (stationsClean s), some (maintClean m)⟩
  | _, _, _ => .error "Call load_data() first"

/-- `_trips` (lines 316–319). -/
def getTripsDf (st : SysState) : Except String (List RawTrip) :=
  match st.trips with
  | some t => .ok t
  | none => .error "Trips not loaded"

/-- `_stations` (lines 321–324). -/
def getStationsDf (st : SysState) : Except String (List RawStation) :=
  match st.stations with
  | some s => .ok s
  | none => .error "Stations not loaded"

/-- `total_trips_summary` as a method: the body reads `self` through
`_trips` and never assigns an attribute, so the state after the call is
returned unchanged alongside the value. -/
def total_trips_summary (st : SysState) :
    Except String ((Nat × ℚ × Option ℚ) × SysState) :=
  match getTripsDf st with
  | .ok df => .ok (total_trips_summary_of df, st)
  | .error e => .error e

/-- `top_start_stations` as a method. -/
def top_start_stations (st : SysState) (n : Nat) :
    Except String ((List (Txt × Nat × Option Txt)) × SysState) :=
  match getTripsDf st with
  | .ok df =>
    match getStationsDf st with
    | .ok s => .ok (top_start_stations_of df s n, st)
    | .error e => .error e
  | .error e => .error e

/-- `outlier_trips` as a method. -/
def outlier_trips (st : SysState) (threshold : ℚ) :
    Except String ((List OutlierRow) × SysState) :=
  match getTripsDf st with
  | .ok df => .ok (outlier_trips_of df threshold, st)
  | .error e => .error e

/-- `revenue_by_user_type` as a method. -/
def revenue_by_user_type (st : SysState) :
    Except String ((Option ℚ × Option ℚ) × SysState) :=
  match getTripsDf st with
  | .ok df => .ok (revenue_by_user_type_of df, st)
  | .error e => .error e

/-- `bike_utilization_rate` as a method. -/
def bike_utilization_rate (st : SysState) : Except String (Option ℚ × SysState) :=
  match getTripsDf st with
  | .ok df => .ok (bike_utilization_rate_of df, st)
  | .error e => .error e

/-- `top_active_users` as a method. -/
def top_active_users (st : SysState) (n : Nat) :
    Except String ((List (Txt × Txt × Nat)) × SysState) :=
  match getTripsDf st with
  | .ok df => .ok (top_active_users_of df n, st)
  | .error e => .error e

/-! ### Well-formedness invariants of the cleaned tables -/

/-- The invariant of one cleaned trip row. -/
def TripClean (t : RawTrip) : Prop :=
  ∃ s e, t.start_time = some s ∧ t.end_time = some e ∧ s ≤ e ∧
    t.duration_minutes = some (max 0 (((e - s : Int) : ℚ) / 60)) ∧
    (∃ d, t.distance_km = some d ∧ 0 ≤ d) ∧
    t.user_type ∈ [casualT, memberT] ∧
    t.bike_type ∈ [classicT, electricT] ∧
    t.status ∈ [completedT, cancelledT]

/-- The invariant of one cleaned station row. -/
def StationClean (s : RawStation) : Prop :=
  s.station_id.isSome ∧ s.station_name.isSome ∧
    (∃ c, s.capacity = some c ∧ 0 < c) ∧
    (∃ la, s.latitude = some la ∧ -90 ≤ la ∧ la ≤ 90) ∧
    (∃ lo, s.longitude = some lo ∧ -180 ≤ lo ∧ lo ≤ 180)

/-- The post-normalisation shape of one maintenance row (before/after cost
imputation). -/
def MaintNormed (r : RawMaint) : Prop :=
  r.record_id.isSome ∧ r.bike_id.isSome ∧ r.date.isSome ∧
    r.bike_type ∈ [classicT, electricT] ∧
    (∃ x, r.maintenance_type = canon x)

/-! ### Provenance: every cleaned row comes from the first raw occurrence
of its key -/

/-- The row-level transform `tripsClean` applies to a surviving row, with
the fill parameters the pipeline computes from the whole table. -/
def tripXform (raw : List RawTrip) (r : RawTrip) : RawTrip :=
  tripRecompute (numFillRow
    (medianQ ((tripStatusFilled (tripsNormed raw)).filterMap RawTrip.duration_minutes))
    (medianQ ((tripStatusFilled (tripsNormed raw)).filterMap RawTrip.distance_km))
    (statusFillRow (statusFill (tripsNormed raw)) (tripNormalize r)))

/-- The row-level transform `maintClean` applies to a surviving row. -/
def maintXform (raw : List RawMaint) (r : RawMaint) : RawMaint :=
  costFill (maintPrefill raw) (maintNormalize r)

/-! ### Concrete fixtures used to instantiate the theorems -/

/-- A valid raw trip; its raw duration (99) disagrees with its timestamps
(600 s apart), so cleaning must recompute it to 10 minutes. -/
def exTrip : RawTrip :=
  { trip_id := "t1".toTxt, user_id := "u1".toTxt, user_type := "casual".toTxt,
    bike_id := "b1".toTxt, bike_type := "classic".toTxt,
    start_station_id := "s1".toTxt, end_station_id := "s2".toTxt,
    start_time := some 0, end_time := some 600,
    duration_minutes := some 99, distance_km := some 2, status := "completed".toTxt }

/-- `exTrip` after cleaning: only the duration changed, to 10 minutes. -/
def exTripCleaned : RawTrip := { exTrip with duration_minutes := some 10 }

def exStation : RawStation :=
  { station_id := some ("s1".toTxt), station_name := some ("Main St".toTxt),
    capacity := some 10, latitude := some 40, longitude := some (-74) }

/-- A station whose name is present but is the empty string. -/
def emptyNameStation : RawStation :=
  { station_id := some ("s9".toTxt), station_name := some [], capacity := some 5,
    latitude := some 0, longitude := some 0 }

def exMaintA : RawMaint :=
  { record_id := some ("m1".toTxt), bike_id := some ("b1".toTxt),
    bike_type := "classic".toTxt, date := some 0, maintenance_type := "repair".toTxt,
    cost := some 10 }

/-- A maintenance row of the `electric` group, which has no observed cost
at all, with a missing cost. -/
def exMaintB : RawMaint :=
  { record_id := some ("m2".toTxt), bike_id := some ("b2".toTxt),
    bike_type := "electric".toTxt, date := some 0, maintenance_type := "repair".toTxt,
    cost := none }

def uTrip (uid tid : Txt) : RawTrip :=
  { exTrip with trip_id := tid, user_id := uid, user_type := "member".toTxt }

/-- Four trips: user "ub" appears first in input order, tied at 2 trips
with user "ua". -/
def tieTrips : List RawTrip :=
  [uTrip ("ub".toTxt) ("t1".toTxt), uTrip ("ub".toTxt) ("t2".toTxt),
   uTrip ("ua".toTxt) ("t3".toTxt), uTrip ("ua".toTxt) ("t4".toTxt)]

def sTrip (sid : Txt) : RawTrip := { exTrip with start_station_id := sid }

/-- Eleven trips with start-station counts a:5, b:3, c:3, station `b`
appearing before station `c` in input order. -/
def exStationTrips : List RawTrip :=
  [sTrip ("a".toTxt), sTrip ("b".toTxt), sTrip ("c".toTxt),
   sTrip ("a".toTxt), sTrip ("b".toTxt), sTrip ("c".toTxt),
   sTrip ("a".toTxt), sTrip ("b".toTxt), sTrip ("c".toTxt),
   sTrip ("a".toTxt), sTrip ("a".toTxt)]

def mkStation (sid name : Txt) : RawStation :=
  { station_id := some sid, station_name := some name, capacity := some 10,
    latitude := some 0, longitude := some 0 }

def exStations : List RawStation :=
  [mkStation ("a".toTxt) ("Alpha".toTxt), mkStation ("b".toTxt) ("Beta".toTxt),
   mkStation ("c".toTxt) ("Gamma".toTxt)]

/-! ### Theorems -/

theorem lowC_idem (n : Nat) : lowC (lowC n) = lowC n := by
  simp only [lowC]; split_ifs <;> omega

theorem map_eq_self_of_fix {α : Type} {f : α → α} :
    ∀ {l : List α}, (∀ x ∈ l, f x = x) → l.map f = l := by
  intro l h
  induction l with
  | nil => rfl
  | cons a t ih => simp only [List.map_cons]; rw [h a (by simp), ih]; intro x hx; exact h x (by simp [hx])

theorem head_false_of_dropWhile_fix {α : Type} {p : α → Bool} {x : α} {t : List α}
    (h : (x :: t).dropWhile p = x :: t) : p x = false := by
  by_contra hc
  rw [Bool.not_eq_false] at hc
  rw [List.dropWhile_cons, if_pos hc] at h
  have h2 := congrArg List.length h
  have h3 := ( List.dropWhile_sublist (l := t) p).length_le
  simp at h2
  omega

theorem dropWhile_idem {α : Type} (p : α → Bool) (l : List α) :
    (l.dropWhile p).dropWhile p = l.dropWhile p := by
  rcases h : l.dropWhile p with _ | ⟨x, xs⟩
  · rfl
  · have hh := List.head?_dropWhile_not p l
    rw [h] at hh
    simp only [List.head?_cons] at hh
    rw [List.dropWhile_cons, if_neg (by simp [hh])]

/-- Elements of `trimTxt l` are elements of `l`. -/
theorem mem_of_mem_trimTxt {l : Txt} {x : Nat} (h : x ∈ trimTxt l) : x ∈ l := by
  unfold trimTxt trimEnd trimStart at h
  rw [List.mem_reverse] at h
  have h2 := ( List.dropWhile_sublist wsC).mem h
  rw [List.mem_reverse] at h2
  exact ( List.dropWhile_sublist wsC).mem h2

theorem trimEnd_idem (l : Txt) : trimEnd (trimEnd l) = trimEnd l := by
  unfold trimEnd
  rw [List.reverse_reverse, dropWhile_idem]

theorem trimStart_idem (l : Txt) : trimStart (trimStart l) = trimStart l :=
  dropWhile_idem wsC l

theorem trimStart_trimEnd_fix {l : Txt} (h : trimStart l = l) :
    trimStart (trimEnd l) = trimEnd l := by
  rcases he : trimEnd l with _ | ⟨x, xs⟩
  · rfl
  · have hpre : trimEnd l <+: l := by
      unfold trimEnd
      obtain ⟨t, ht⟩ := List.dropWhile_suffix (l := l.reverse) wsC
      exact ⟨t.reverse, by rw [← List.reverse_append, ht, List.reverse_reverse]⟩
    rw [he] at hpre
    obtain ⟨t, ht⟩ := hpre
    have hl : l = x :: (xs ++ t) := by rw [← ht]; simp
    unfold trimStart at h
    rw [hl] at h
    have hx := head_false_of_dropWhile_fix h
    unfold trimStart
    rw [List.dropWhile_cons, if_neg (by simp [hx])]

/-- `trimTxt` is idempotent. -/
theorem trimTxt_idem (l : Txt) : trimTxt (trimTxt l) = trimTxt l := by
  unfold trimTxt
  rw [trimStart_trimEnd_fix (trimStart_idem l), trimEnd_idem]

/-- `canon` is idempotent: re-cleaning an already normalised text value
changes nothing. -/
theorem canon_idem (l : Txt) : canon (canon l) = canon l := by
  unfold canon
  have h1 : (trimTxt ((l.map lowC))).map lowC = trimTxt (l.map lowC) := by
    apply map_eq_self_of_fix
    intro x hx
    have : x ∈ l.map lowC := mem_of_mem_trimTxt hx
    obtain ⟨y, _, rfl⟩ := List.mem_map.mp this
    exact lowC_idem y
  rw [h1, trimTxt_idem]

theorem dedupByAux_sublist {α κ : Type} [DecidableEq κ] (key : α → κ) :
    ∀ (seen : List κ) (l : List α), (dedupByAux key seen l).Sublist l := by
  intro seen l
  induction l generalizing seen with
  | nil => simp [dedupByAux]
  | cons x xs ih =>
    simp only [dedupByAux]
    split
    · exact (ih seen).trans (List.sublist_cons_self x xs)
    · exact (ih (key x :: seen)).cons₂ x

theorem dedupBy_sublist {α κ : Type} [DecidableEq κ] (key : α → κ) (l : List α) :
    (dedupBy key l).Sublist l := dedupByAux_sublist key [] l

theorem mem_of_mem_dedupBy {α κ : Type} [DecidableEq κ] {key : α → κ} {l : List α} {x : α}
    (h : x ∈ dedupBy key l) : x ∈ l := (dedupBy_sublist key l).mem h

theorem length_dedupBy_le {α κ : Type} [DecidableEq κ] (key : α → κ) (l : List α) :
    (dedupBy key l).length ≤ l.length := (dedupBy_sublist key l).length_le

theorem key_not_seen_of_mem_dedupByAux {α κ : Type} [DecidableEq κ] {key : α → κ} :
    ∀ {seen : List κ} {l : List α} {x : α}, x ∈ dedupByAux key seen l → key x ∉ seen := by
  intro seen l
  induction l generalizing seen with
  | nil => intro x h; simp [dedupByAux] at h
  | cons y ys ih =>
    intro x h
    simp only [dedupByAux] at h
    split at h
    · exact ih h
    · rcases List.mem_cons.mp h with rfl | h2
      · assumption
      · have := ih h2
        intro hc; exact this (List.mem_cons_of_mem _ hc)

theorem keys_nodup_dedupByAux {α κ : Type} [DecidableEq κ] (key : α → κ) :
    ∀ (seen : List κ) (l : List α), ((dedupByAux key seen l).map key).Nodup := by
  intro seen l
  induction l generalizing seen with
  | nil => simp [dedupByAux]
  | cons x xs ih =>
    simp only [dedupByAux]
    split
    · exact ih seen
    · simp only [List.map_cons, List.nodup_cons]
      refine ⟨?_, ih (key x :: seen)⟩
      intro hc
      obtain ⟨y, hy, hky⟩ := List.mem_map.mp hc
      have := key_not_seen_of_mem_dedupByAux hy
      exact this (by rw [hky]; exact List.mem_cons_self _ _)

/-- After deduplication the keys are pairwise distinct. -/
theorem keys_nodup_dedupBy {α κ : Type} [DecidableEq κ] (key : α → κ) (l : List α) :
    ((dedupBy key l).map key).Nodup := keys_nodup_dedupByAux key [] l

/-- A member of the deduplicated list is the first occurrence of its key. -/
theorem find?_of_mem_dedupByAux {α κ : Type} [DecidableEq κ] {key : α → κ} :
    ∀ {seen : List κ} {l : List α} {x : α}, x ∈ dedupByAux key seen l →
      l.find? (fun y => key y = key x) = some x := by
  intro seen l
  induction l generalizing seen with
  | nil => intro x h; simp [dedupByAux] at h
  | cons y ys ih =>
    intro x h
    have hxnot := key_not_seen_of_mem_dedupByAux h
    simp only [dedupByAux] at h
    split at h
    · have hne : key y ≠ key x := by
        intro hc; rw [← hc] at hxnot; exact hxnot (by assumption)
      rw [List.find?_cons_of_neg _ (by simpa using hne)]
      exact ih h
    · rcases List.mem_cons.mp h with rfl | h2
      · rw [List.find?_cons_of_pos _ (by simp)]
      · have hxnot2 := key_not_seen_of_mem_dedupByAux h2
        have hne : key y ≠ key x := by
          intro hc
          exact hxnot2 (by rw [hc]; exact List.mem_cons_self _ _)
        rw [List.find?_cons_of_neg _ (by simpa using hne)]
        exact ih h2

theorem find?_of_mem_dedupBy {α κ : Type} [DecidableEq κ] {key : α → κ} {l : List α} {x : α}
    (h : x ∈ dedupBy key l) : l.find? (fun y => key y = key x) = some x :=
  find?_of_mem_dedupByAux h

/-- If the keys of `l` are already pairwise distinct, deduplication is the
identity (used for idempotence of the cleaning pipeline). -/
theorem dedupByAux_eq_self {α κ : Type} [DecidableEq κ] (key : α → κ) :
    ∀ (seen : List κ) (l : List α), (l.map key).Nodup → (∀ x ∈ l, key x ∉ seen) →
      dedupByAux key seen l = l := by
  intro seen l
  induction l generalizing seen with
  | nil => intro _ _; rfl
  | cons x xs ih =>
    intro hnd hdisj
    simp only [dedupByAux]
    rw [if_neg (hdisj x (List.mem_cons_self _ _))]
    congr 1
    simp only [List.map_cons, List.nodup_cons] at hnd
    refine ih (key x :: seen) hnd.2 ?_
    intro y hy
    rw [List.mem_cons]
    push_neg
    constructor
    · intro hc; exact hnd.1 (by rw [← hc]; exact List.mem_map_of_mem key hy)
    · exact hdisj y (List.mem_cons_of_mem _ hy)

theorem dedupBy_eq_self {α κ : Type} [DecidableEq κ] (key : α → κ) (l : List α)
    (hnd : (l.map key).Nodup) : dedupBy key l = l :=
  dedupByAux_eq_self key [] l hnd (by simp)

theorem insBy_perm {α : Type} (lt : α → α → Bool) (x : α) :
    ∀ (l : List α), List.Perm (insBy lt x l) (x :: l) := by
  intro l
  induction l with
  | nil => exact List.Perm.refl _
  | cons y ys ih =>
    simp only [insBy]
    split
    · exact List.Perm.refl _
    · exact (List.Perm.cons y ih).trans (List.Perm.swap x y ys)

theorem insBy_desc_pairwise {α : Type} (cnt : α → Nat) (x : α) :
    ∀ {l : List α}, List.Pairwise (fun a b => cnt b ≤ cnt a) l →
      List.Pairwise (fun a b => cnt b ≤ cnt a) (insBy (fun a b => cnt b < cnt a) x l) := by
  intro l
  induction l with
  | nil => intro _; simp [insBy]
  | cons y ys ih =>
    intro hp
    rw [List.pairwise_cons] at hp
    simp only [insBy]
    split
    · rename_i hlt
      rw [decide_eq_true_iff] at hlt
      rw [List.pairwise_cons]
      refine ⟨?_, List.pairwise_cons.mpr hp⟩
      intro z hz
      rcases List.mem_cons.mp hz with rfl | hz2
      · omega
      · have := hp.1 z hz2; omega
    · rename_i hnlt
      rw [decide_eq_true_iff] at hnlt
      rw [List.pairwise_cons]
      constructor
      · intro z hz
        have hz2 := (insBy_perm _ x ys).mem_iff.mp hz
        rcases List.mem_cons.mp hz2 with rfl | hz3
        · omega
        · exact hp.1 z hz3
      · exact ih hp.2

theorem insBy_desc_filter {α : Type} (cnt : α → Nat) (x : α) (c : Nat) :
    ∀ {l : List α}, List.Pairwise (fun a b => cnt b ≤ cnt a) l →
      (insBy (fun a b => cnt b < cnt a) x l).filter (fun z => cnt z == c) =
        if cnt x == c then l.filter (fun z => cnt z == c) ++ [x]
        else l.filter (fun z => cnt z == c) := by
  intro l
  induction l with
  | nil =>
    intro _
    by_cases hx : cnt x = c
    · simp [insBy, List.filter_singleton, hx]
    · simp [insBy, List.filter_singleton, hx]
  | cons y ys ih =>
    intro hp
    rw [List.pairwise_cons] at hp
    simp only [insBy]
    split
    · rename_i hlt
      rw [decide_eq_true_iff] at hlt
      by_cases hx : cnt x = c
      · have hfe : (y :: ys).filter (fun z => cnt z == c) = [] := by
          rw [List.filter_eq_nil_iff]
          intro z hz
          rcases List.mem_cons.mp hz with rfl | hz2
          · simp; omega
          · have := hp.1 z hz2; simp; omega
        rw [List.filter_cons_of_pos (by simp [hx]), hfe, if_pos (by simp [hx])]
        rfl
      · rw [List.filter_cons_of_neg (by simp [hx]), if_neg (by simp [hx])]
    · rename_i hnlt
      by_cases hy : cnt y = c
      · rw [List.filter_cons_of_pos (by simp [hy]), List.filter_cons_of_pos (by simp [hy]),
          ih hp.2]
        split <;> simp
      · rw [List.filter_cons_of_neg (by simp [hy]), List.filter_cons_of_neg (by simp [hy]),
          ih hp.2]

theorem sortDescAux_spec {α : Type} (cnt : α → Nat) :
    ∀ (l acc : List α), List.Pairwise (fun a b => cnt b ≤ cnt a) acc →
      List.Pairwise (fun a b => cnt b ≤ cnt a)
          (l.foldl (fun acc x => insBy (fun a b => cnt b < cnt a) x acc) acc)
      ∧ ∀ c, (l.foldl (fun acc x => insBy (fun a b => cnt b < cnt a) x acc) acc).filter
              (fun z => cnt z == c) =
          acc.filter (fun z => cnt z == c) ++ l.filter (fun z => cnt z == c) := by
  intro l
  induction l with
  | nil => intro acc hp; exact ⟨hp, fun c => by simp⟩
  | cons x xs ih =>
    intro acc hp
    simp only [List.foldl_cons]
    obtain ⟨h1, h2⟩ := ih (insBy (fun a b => cnt b < cnt a) x acc) (insBy_desc_pairwise cnt x hp)
    refine ⟨h1, fun c => ?_⟩
    rw [h2 c, insBy_desc_filter cnt x c hp]
    by_cases hx : cnt x = c
    · rw [if_pos (by simp [hx]), List.filter_cons_of_pos (by simp [hx])]
      simp
    · rw [if_neg (by simp [hx]), List.filter_cons_of_neg (by simp [hx])]

/-- The descending count sort sorts by count, descending. -/
theorem sortDescBy_pairwise {α : Type} (cnt : α → Nat) (l : List α) :
    List.Pairwise (fun a b => cnt b ≤ cnt a) (sortDescBy cnt l) :=
  (sortDescAux_spec cnt l [] (by simp)).1

/-- Stability of the descending count sort: the elements of any fixed count
keep their input order. -/
theorem sortDescBy_filter {α : Type} (cnt : α → Nat) (l : List α) (c : Nat) :
    (sortDescBy cnt l).filter (fun z => cnt z == c) = l.filter (fun z => cnt z == c) :=
  ((sortDescAux_spec cnt l [] (by simp)).2 c).trans (by simp)

theorem stableSortBy_perm {α : Type} (lt : α → α → Bool) (l : List α) :
    List.Perm (stableSortBy lt l) l := by
  suffices h : ∀ (l acc : List α),
      List.Perm (l.foldl (fun acc x => insBy lt x acc) acc) (l ++ acc) by
    have := h l []
    simpa using this
  intro l
  induction l with
  | nil => intro acc; simp
  | cons x xs ih =>
    intro acc
    simp only [List.foldl_cons]
    refine (ih (insBy lt x acc)).trans ?_
    refine ( List.Perm.append_left xs (insBy_perm lt x acc)).trans ?_
    exact List.perm_middle

theorem length_insAscQ (x : ℚ) : ∀ (l : List ℚ), (insAscQ x l).length = l.length + 1 := by
  intro l
  induction l with
  | nil => rfl
  | cons y ys ih => simp only [insAscQ]; split <;> simp [ih]

theorem length_sortAscQ (l : List ℚ) : (sortAscQ l).length = l.length := by
  induction l with
  | nil => rfl
  | cons x xs ih =>
    simp only [sortAscQ, List.foldr_cons] at *
    rw [length_insAscQ, ih]
    simp

/-- The median of a nonempty sequence exists (pandas returns a number, not
an error, and not `NaN`). -/
theorem medianQ_isSome {l : List ℚ} (h : l ≠ []) : ∃ m, medianQ l = some m := by
  have hn : 0 < (sortAscQ l).length := by
    rw [length_sortAscQ]
    exact List.length_pos.mpr h
  unfold medianQ
  simp only
  rw [if_neg (by omega)]
  by_cases hodd : (sortAscQ l).length % 2 = 1
  · rw [if_pos hodd, List.getElem?_eq_getElem (by omega)]
    exact ⟨_, rfl⟩
  · rw [if_neg hodd]
    have h2 : 2 ≤ (sortAscQ l).length := by omega
    rw [List.getElem?_eq_getElem (by omega), List.getElem?_eq_getElem (by omega)]
    exact ⟨_, rfl⟩

/-- Every row of the cleaned trips table satisfies the invariant. -/
theorem tripClean_of_mem {raw : List RawTrip} {t : RawTrip}
    (h : t ∈ tripsClean raw) : TripClean t := by
  simp only [tripsClean, List.mem_map, List.mem_filter] at h
  obtain ⟨u, ⟨⟨⟨⟨⟨⟨⟨_, h1⟩, h2⟩, h3⟩, h4⟩, h5⟩, h6⟩, h7⟩, rfl⟩ := h
  rw [tripDropnaTimes, Bool.and_eq_true, Option.isSome_iff_exists, Option.isSome_iff_exists]
    at h1
  obtain ⟨⟨s, hs⟩, e, he⟩ := h1
  rw [tripEndGeStart, hs, he, decide_eq_true_eq] at h2
  have hd : ∃ d, u.distance_km = some d ∧ 0 ≤ d := by
    rw [tripDistNonneg] at h4
    rcases hk : u.distance_km with _ | d
    · rw [hk] at h4; exact absurd h4 (by simp)
    · rw [hk, decide_eq_true_eq] at h4; exact ⟨d, rfl, h4⟩
  rw [tripUserTypeOk, decide_eq_true_eq] at h5
  rw [tripBikeTypeOk, decide_eq_true_eq] at h6
  rw [tripStatusOk, decide_eq_true_eq] at h7
  refine ⟨s, e, ?_⟩
  have hrec : tripRecompute u =
      { u with duration_minutes := some (max 0 (((e - s : Int) : ℚ) / 60)) } := by
    rw [tripRecompute, hs, he]
  rw [hrec]
  exact ⟨hs, he, h2, rfl, hd, h5, h6, h7⟩

/-- Every row of the cleaned stations table satisfies the invariant. -/
theorem stationClean_of_mem {raw : List RawStation} {s : RawStation}
    (h : s ∈ stationsClean raw) : StationClean s := by
  simp only [stationsClean, List.mem_filter] at h
  obtain ⟨⟨⟨_, h1⟩, h2⟩, h3⟩ := h
  rw [stationDropna] at h1
  simp only [Bool.and_eq_true] at h1
  obtain ⟨⟨⟨⟨hid, hname⟩, hcap⟩, _⟩, _⟩ := h1
  have hc : ∃ c, s.capacity = some c ∧ 0 < c := by
    rw [stationCapPos] at h2
    rcases hk : s.capacity with _ | c
    · rw [hk] at h2; exact absurd h2 (by simp)
    · rw [hk, decide_eq_true_eq] at h2; exact ⟨c, rfl, h2⟩
  have hco : (∃ la, s.latitude = some la ∧ -90 ≤ la ∧ la ≤ 90) ∧
      (∃ lo, s.longitude = some lo ∧ -180 ≤ lo ∧ lo ≤ 180) := by
    rw [stationCoordsOk] at h3
    rcases hla : s.latitude with _ | la <;> rcases hlo : s.longitude with _ | lo <;>
      rw [hla, hlo] at h3
    · exact absurd h3 (by simp)
    · exact absurd h3 (by simp)
    · exact absurd h3 (by simp)
    · simp only [Bool.and_eq_true, decide_eq_true_eq] at h3
      exact ⟨⟨la, rfl, h3.1.1.1, h3.1.1.2⟩, ⟨lo, rfl, h3.1.2, h3.2⟩⟩
  exact ⟨hid, hname, hc, hco.1, hco.2⟩

/-- Every row of the pre-imputation maintenance table is normalised. -/
theorem maintNormed_of_mem_prefill {raw : List RawMaint} {r : RawMaint}
    (h : r ∈ maintPrefill raw) : MaintNormed r := by
  simp only [maintPrefill, List.mem_filter, List.mem_map] at h
  obtain ⟨⟨⟨r0, _, rfl⟩, h1⟩, h2⟩ := h
  rw [maintDropna] at h1
  simp only [Bool.and_eq_true] at h1
  rw [maintBikeTypeOk, decide_eq_true_eq] at h2
  exact ⟨h1.1.1, h1.1.2, h1.2, h2, r0.maintenance_type, rfl⟩

/-- `costFill` only changes the cost column. -/
theorem costFill_fields (tbl : List RawMaint) (r : RawMaint) :
    (costFill tbl r).record_id = r.record_id ∧ (costFill tbl r).bike_id = r.bike_id ∧
      (costFill tbl r).bike_type = r.bike_type ∧ (costFill tbl r).date = r.date ∧
      (costFill tbl r).maintenance_type = r.maintenance_type := by
  exact ⟨rfl, rfl, rfl, rfl, rfl⟩

/-- Every row of the cleaned maintenance table is normalised. -/
theorem maintNormed_of_mem_clean {raw : List RawMaint} {r : RawMaint}
    (h : r ∈ maintClean raw) : MaintNormed r := by
  simp only [maintClean, List.mem_map] at h
  obtain ⟨r0, hr0, rfl⟩ := h
  have := maintNormed_of_mem_prefill hr0
  exact this

/-! ### Key preservation through the row transforms -/

theorem trip_id_tripNormalize (t : RawTrip) : (tripNormalize t).trip_id = t.trip_id := rfl

theorem trip_id_statusFillRow (f : Txt) (t : RawTrip) :
    (statusFillRow f t).trip_id = t.trip_id := by
  unfold statusFillRow; split <;> rfl

theorem trip_id_numFillRow (dm km : Option ℚ) (t : RawTrip) :
    (numFillRow dm km t).trip_id = t.trip_id := rfl

theorem trip_id_tripRecompute (t : RawTrip) : (tripRecompute t).trip_id = t.trip_id := by
  unfold tripRecompute; split <;> rfl

theorem record_id_maintNormalize (r : RawMaint) :
    (maintNormalize r).record_id = r.record_id := rfl

/-- The keys of the imputed-and-normalised trips table are the keys of the
deduplicated raw table. -/
theorem tripsT0_keys (raw : List RawTrip) :
    (tripNumFilled (tripStatusFilled (tripsNormed raw))).map RawTrip.trip_id =
      (dedupBy RawTrip.trip_id raw).map RawTrip.trip_id := by
  unfold tripNumFilled tripStatusFilled tripsNormed
  simp only [List.map_map]
  apply List.map_congr_left
  intro a _
  simp only [Function.comp_apply]
  rw [trip_id_numFillRow, trip_id_statusFillRow, trip_id_tripNormalize]

/-- The seven row filters applied by `tripsClean`, as one sublist fact. -/
theorem tripsClean_filters_sublist (raw : List RawTrip) :
    (((((((tripNumFilled (tripStatusFilled (tripsNormed raw))).filter
        tripDropnaTimes).filter tripEndGeStart).filter tripDurNonneg).filter
        tripDistNonneg).filter tripUserTypeOk).filter tripBikeTypeOk).filter
        tripStatusOk |>.Sublist (tripNumFilled (tripStatusFilled (tripsNormed raw))) := by
  refine ( List.filter_sublist _).trans ?_
  refine ( List.filter_sublist _).trans ?_
  refine ( List.filter_sublist _).trans ?_
  refine ( List.filter_sublist _).trans ?_
  refine ( List.filter_sublist _).trans ?_
  refine ( List.filter_sublist _).trans ?_
  exact List.filter_sublist _

/-- The trip ids of the cleaned trips table are pairwise distinct. -/
theorem tripsClean_keys_nodup (raw : List RawTrip) :
    ((tripsClean raw).map RawTrip.trip_id).Nodup := by
  have hmap : (tripsClean raw).map RawTrip.trip_id =
      ((((((((tripNumFilled (tripStatusFilled (tripsNormed raw))).filter
        tripDropnaTimes).filter tripEndGeStart).filter tripDurNonneg).filter
        tripDistNonneg).filter tripUserTypeOk).filter tripBikeTypeOk).filter
        tripStatusOk).map RawTrip.trip_id := by
    unfold tripsClean
    simp only [List.map_map]
    exact List.map_congr_left (fun a _ => trip_id_tripRecompute a)
  rw [hmap]
  have hsub := (tripsClean_filters_sublist raw).map RawTrip.trip_id
  refine hsub.nodup ?_
  rw [tripsT0_keys]
  exact keys_nodup_dedupBy RawTrip.trip_id raw

theorem tripsClean_length_le (raw : List RawTrip) :
    (tripsClean raw).length ≤ raw.length := by
  unfold tripsClean
  simp only [List.length_map]
  refine le_trans (tripsClean_filters_sublist raw).length_le ?_
  unfold tripNumFilled tripStatusFilled tripsNormed
  simp only [List.length_map]
  exact length_dedupBy_le RawTrip.trip_id raw

/-- The station ids of the cleaned stations table are pairwise distinct. -/
theorem stationsClean_keys_nodup (raw : List RawStation) :
    ((stationsClean raw).map RawStation.station_id).Nodup := by
  unfold stationsClean
  have hsub : ((((dedupBy RawStation.station_id raw).filter stationDropna).filter
      stationCapPos).filter stationCoordsOk).Sublist (dedupBy RawStation.station_id raw) := by
    refine ( List.filter_sublist _).trans ?_
    refine ( List.filter_sublist _).trans ?_
    exact List.filter_sublist _
  exact (hsub.map RawStation.station_id).nodup (keys_nodup_dedupBy RawStation.station_id raw)

theorem stationsClean_length_le (raw : List RawStation) :
    (stationsClean raw).length ≤ raw.length := by
  unfold stationsClean
  have hsub : ((((dedupBy RawStation.station_id raw).filter stationDropna).filter
      stationCapPos).filter stationCoordsOk).Sublist (dedupBy RawStation.station_id raw) := by
    refine ( List.filter_sublist _).trans ?_
    refine ( List.filter_sublist _).trans ?_
    exact List.filter_sublist _
  exact le_trans hsub.length_le (length_dedupBy_le RawStation.station_id raw)

/-- The prefill maintenance table is a filtered image of the deduplicated
raw table. -/
theorem maintPrefill_sublist (raw : List RawMaint) :
    (maintPrefill raw).Sublist ((dedupBy RawMaint.record_id raw).map maintNormalize) := by
  unfold maintPrefill
  refine ( List.filter_sublist _).trans ?_
  exact List.filter_sublist _

/-- The record ids of the cleaned maintenance table are pairwise distinct. -/
theorem maintClean_keys_nodup (raw : List RawMaint) :
    ((maintClean raw).map RawMaint.record_id).Nodup := by
  have hmap : (maintClean raw).map RawMaint.record_id =
      (maintPrefill raw).map RawMaint.record_id := by
    unfold maintClean
    simp only [List.map_map]
    exact List.map_congr_left (fun a _ => (costFill_fields _ a).1)
  rw [hmap]
  refine ((maintPrefill_sublist raw).map RawMaint.record_id).nodup ?_
  have : ((dedupBy RawMaint.record_id raw).map maintNormalize).map RawMaint.record_id =
      (dedupBy RawMaint.record_id raw).map RawMaint.record_id := by
    simp only [List.map_map]
    exact List.map_congr_left (fun a _ => record_id_maintNormalize a)
  rw [this]
  exact keys_nodup_dedupBy RawMaint.record_id raw

theorem maintClean_length_le (raw : List RawMaint) :
    (maintClean raw).length ≤ raw.length := by
  unfold maintClean
  simp only [List.length_map]
  refine le_trans (maintPrefill_sublist raw).length_le ?_
  simp only [List.length_map]
  exact length_dedupBy_le RawMaint.record_id raw

/-! ### The cleaning pipeline fixes already-clean tables -/

theorem canon_fix_of_trip_enums {x : Txt}
    (h : x ∈ [casualT, memberT] ∨ x ∈ [classicT, electricT] ∨
      x ∈ [completedT, cancelledT]) : canon x = x := by
  simp only [List.mem_cons, List.mem_singleton, List.not_mem_nil, or_false] at h
  rcases h with (h | h) | (h | h) | (h | h) <;> rw [h] <;> decide

theorem tripNormalize_fixed {t : RawTrip} (h : TripClean t) : tripNormalize t = t := by
  obtain ⟨s, e, _, _, _, _, _, hu, hb, hst⟩ := h
  unfold tripNormalize
  rw [canon_fix_of_trip_enums (Or.inl hu), canon_fix_of_trip_enums (Or.inr (Or.inl hb)),
    canon_fix_of_trip_enums (Or.inr (Or.inr hst))]

theorem statusFillRow_fixed {f : Txt} {t : RawTrip}
    (h : t.status ∈ [completedT, cancelledT]) : statusFillRow f t = t := by
  unfold statusFillRow
  rw [if_neg]
  intro hc
  simp only [List.mem_cons, List.mem_singleton, List.not_mem_nil, or_false] at h
  rcases h with h | h <;> rw [h] at hc <;> exact absurd hc (by decide)

theorem numFillRow_fixed {dm km : Option ℚ} {t : RawTrip}
    (hd : ∃ d, t.duration_minutes = some d) (hk : ∃ k, t.distance_km = some k) :
    numFillRow dm km t = t := by
  obtain ⟨d, hd2⟩ := hd
  obtain ⟨k, hk2⟩ := hk
  unfold numFillRow
  rw [hd2, hk2]
  show ({ t with duration_minutes := some d, distance_km := some k } : RawTrip) = t
  rw [← hd2, ← hk2]

theorem tripRecompute_fixed {t : RawTrip} (h : TripClean t) : tripRecompute t = t := by
  obtain ⟨s, e, hs, he, _, hdur, _, _, _, _⟩ := h
  have h2 : tripRecompute t =
      { t with duration_minutes := some (max 0 (((e - s : Int) : ℚ) / 60)) } := by
    unfold tripRecompute; rw [hs, he]
  rw [h2, ← hdur]

theorem tripFilters_of_clean {t : RawTrip} (h : TripClean t) :
    tripDropnaTimes t = true ∧ tripEndGeStart t = true ∧ tripDurNonneg t = true ∧
      tripDistNonneg t = true ∧ tripUserTypeOk t = true ∧ tripBikeTypeOk t = true ∧
      tripStatusOk t = true := by
  obtain ⟨s, e, hs, he, hse, hdur, ⟨d, hd, hdn⟩, hu, hb, hst⟩ := h
  refine ⟨?_, ?_, ?_, ?_, ?_, ?_, ?_⟩
  · rw [tripDropnaTimes, hs, he]; rfl
  · simp only [tripEndGeStart, hs, he, decide_eq_true_eq]; exact hse
  · simp only [tripDurNonneg, hdur, decide_eq_true_eq]; exact le_max_left 0 _
  · simp only [tripDistNonneg, hd, decide_eq_true_eq]; exact hdn
  · simp only [tripUserTypeOk, decide_eq_true_eq]; exact hu
  · simp only [tripBikeTypeOk, decide_eq_true_eq]; exact hb
  · simp only [tripStatusOk, decide_eq_true_eq]; exact hst

/-- A table of clean rows with distinct ids is a fixed point of the trips
pipeline. -/
theorem tripsClean_fixed {l : List RawTrip} (hcl : ∀ t ∈ l, TripClean t)
    (hnd : (l.map RawTrip.trip_id).Nodup) : tripsClean l = l := by
  have h1 : tripsNormed l = l := by
    unfold tripsNormed
    rw [dedupBy_eq_self _ _ hnd]
    exact map_eq_self_of_fix (fun t ht => tripNormalize_fixed (hcl t ht))
  have h2 : tripStatusFilled l = l := by
    unfold tripStatusFilled
    apply map_eq_self_of_fix
    intro t ht
    obtain ⟨_, _, _, _, _, _, _, _, _, hst⟩ := hcl t ht
    exact statusFillRow_fixed hst
  have h3 : tripNumFilled l = l := by
    unfold tripNumFilled
    apply map_eq_self_of_fix
    intro t ht
    obtain ⟨s, e, _, _, _, hdur, ⟨d, hd, _⟩, _, _, _⟩ := hcl t ht
    exact numFillRow_fixed ⟨_, hdur⟩ ⟨d, hd⟩
  unfold tripsClean
  rw [h1, h2, h3]
  rw [List.filter_eq_self.mpr (fun a ha => (tripFilters_of_clean (hcl a ha)).1)]
  rw [List.filter_eq_self.mpr (fun a ha => (tripFilters_of_clean (hcl a ha)).2.1)]
  rw [List.filter_eq_self.mpr (fun a ha => (tripFilters_of_clean (hcl a ha)).2.2.1)]
  rw [List.filter_eq_self.mpr (fun a ha => (tripFilters_of_clean (hcl a ha)).2.2.2.1)]
  rw [List.filter_eq_self.mpr (fun a ha => (tripFilters_of_clean (hcl a ha)).2.2.2.2.1)]
  rw [List.filter_eq_self.mpr (fun a ha => (tripFilters_of_clean (hcl a ha)).2.2.2.2.2.1)]
  rw [List.filter_eq_self.mpr (fun a ha => (tripFilters_of_clean (hcl a ha)).2.2.2.2.2.2)]
  exact map_eq_self_of_fix (fun t ht => tripRecompute_fixed (hcl t ht))

theorem stationFilters_of_clean {s : RawStation} (h : StationClean s) :
    stationDropna s = true ∧ stationCapPos s = true ∧ stationCoordsOk s = true := by
  obtain ⟨hid, hname, ⟨c, hc, hcp⟩, ⟨la, hla, hla1, hla2⟩, ⟨lo, hlo, hlo1, hlo2⟩⟩ := h
  refine ⟨?_, ?_, ?_⟩
  · rw [stationDropna, hid, hname, hc, hla, hlo]; rfl
  · simp only [stationCapPos, hc, decide_eq_true_eq]; exact hcp
  · simp only [stationCoordsOk, hla, hlo, Bool.and_eq_true, decide_eq_true_eq]
    exact ⟨⟨⟨hla1, hla2⟩, hlo1⟩, hlo2⟩

/-- A table of clean rows with distinct ids is a fixed point of the
stations pipeline. -/
theorem stationsClean_fixed {l : List RawStation} (hcl : ∀ s ∈ l, StationClean s)
    (hnd : (l.map RawStation.station_id).Nodup) : stationsClean l = l := by
  unfold stationsClean
  rw [dedupBy_eq_self _ _ hnd]
  rw [List.filter_eq_self.mpr (fun a ha => (stationFilters_of_clean (hcl a ha)).1)]
  rw [List.filter_eq_self.mpr (fun a ha => (stationFilters_of_clean (hcl a ha)).2.1)]
  rw [List.filter_eq_self.mpr (fun a ha => (stationFilters_of_clean (hcl a ha)).2.2)]

theorem maintNormalize_fixed {r : RawMaint} (h : MaintNormed r) : maintNormalize r = r := by
  obtain ⟨_, _, _, hb, x, hx⟩ := h
  unfold maintNormalize
  have hb2 : canon r.bike_type = r.bike_type := by
    simp only [List.mem_cons, List.mem_singleton, List.not_mem_nil, or_false] at hb
    rcases hb with h | h <;> rw [h] <;> decide
  have hx2 : canon r.maintenance_type = r.maintenance_type := by
    rw [hx, canon_idem]
  rw [hb2, hx2]

theorem maintFilters_of_normed {r : RawMaint} (h : MaintNormed r) :
    maintDropna r = true ∧ maintBikeTypeOk r = true := by
  obtain ⟨h1, h2, h3, hb, _⟩ := h
  constructor
  · rw [maintDropna, h1, h2, h3]; rfl
  · simp only [maintBikeTypeOk, decide_eq_true_eq]; exact hb

/-- A table of normalised rows with distinct ids is a fixed point of the
maintenance prefill pipeline. -/
theorem maintPrefill_fixed {l : List RawMaint} (hn : ∀ r ∈ l, MaintNormed r)
    (hnd : (l.map RawMaint.record_id).Nodup) : maintPrefill l = l := by
  unfold maintPrefill
  rw [dedupBy_eq_self _ _ hnd]
  rw [map_eq_self_of_fix (fun r hr => maintNormalize_fixed (hn r hr))]
  rw [List.filter_eq_self.mpr (fun a ha => (maintFilters_of_normed (hn a ha)).1)]
  rw [List.filter_eq_self.mpr (fun a ha => (maintFilters_of_normed (hn a ha)).2)]

theorem costFill_of_some {tbl : List RawMaint} {r : RawMaint} {c : ℚ}
    (hc : r.cost = some c) : costFill tbl r = r := by
  unfold costFill
  rw [hc]
  show ({ r with cost := some c } : RawMaint) = r
  rw [← hc]

theorem costFill_of_all_missing {tbl : List RawMaint} {r : RawMaint}
    (hc : r.cost = none) (hall : tbl.filterMap RawMaint.cost = []) :
    costFill tbl r = r := by
  have hg : groupCosts tbl r.bike_type = [] := by
    apply List.sublist_nil.mp
    rw [← hall]
    exact ( List.filter_sublist _).filterMap RawMaint.cost
  unfold costFill
  rw [hc, hg, hall]
  show ({ r with cost := none } : RawMaint) = r
  rw [← hc]

theorem costFill_cost (tbl : List RawMaint) (r : RawMaint) :
    (costFill tbl r).cost =
      (r.cost.orElse (fun _ => medianQ (groupCosts tbl r.bike_type))).orElse
        (fun _ => medianQ (tbl.filterMap RawMaint.cost)) := rfl

theorem orElse_eq_none {α : Type} {x : Option α} {f : Unit → Option α}
    (h : x.orElse f = none) : x = none ∧ f () = none := by
  cases x with
  | none => exact ⟨rfl, h⟩
  | some a => simp [Option.orElse] at h

theorem nil_of_medianQ_eq_none {l : List ℚ} (h : medianQ l = none) : l = [] := by
  by_contra hne
  obtain ⟨m, hm⟩ := medianQ_isSome hne
  rw [hm] at h
  exact Option.noConfusion h

/-- If some cleaned maintenance row still has a missing cost, the whole
cleaned cost column is missing (this only happens when the raw data had no
valid cost at all). -/
theorem maintClean_cost_none_all {raw : List RawMaint} {r : RawMaint}
    (hr : r ∈ maintClean raw) (hc : r.cost = none) :
    (maintClean raw).filterMap RawMaint.cost = [] := by
  simp only [maintClean, List.mem_map] at hr
  obtain ⟨u, _, rfl⟩ := hr
  rw [costFill_cost] at hc
  have h2 := (orElse_eq_none hc).2
  simp only at h2
  have hprenil : (maintPrefill raw).filterMap RawMaint.cost = [] := nil_of_medianQ_eq_none h2
  rw [List.filterMap_eq_nil_iff]
  intro a ha
  simp only [maintClean, List.mem_map] at ha
  obtain ⟨v, hv, rfl⟩ := ha
  rw [costFill_cost]
  have hvc : v.cost = none := by
    rcases hvc : v.cost with _ | c
    · rfl
    · exfalso
      have : c ∈ (maintPrefill raw).filterMap RawMaint.cost :=
        List.mem_filterMap.mpr ⟨v, hv, hvc⟩
      rw [hprenil] at this
      exact List.not_mem_nil c this
  have hg : groupCosts (maintPrefill raw) v.bike_type = [] := by
    apply List.sublist_nil.mp
    rw [← hprenil]
    exact ( List.filter_sublist _).filterMap RawMaint.cost
  rw [hvc, hg, hprenil]
  rfl

/-! ### Idempotence of the three pipelines -/

theorem tripsClean_idem (raw : List RawTrip) :
    tripsClean (tripsClean raw) = tripsClean raw :=
  tripsClean_fixed (fun _ ht => tripClean_of_mem ht) (tripsClean_keys_nodup raw)

theorem stationsClean_idem (raw : List RawStation) :
    stationsClean (stationsClean raw) = stationsClean raw :=
  stationsClean_fixed (fun _ hs => stationClean_of_mem hs) (stationsClean_keys_nodup raw)

theorem maintClean_idem (raw : List RawMaint) :
    maintClean (maintClean raw) = maintClean raw := by
  have hpre : maintPrefill (maintClean raw) = maintClean raw :=
    maintPrefill_fixed (fun _ hr => maintNormed_of_mem_clean hr) (maintClean_keys_nodup raw)
  show (maintPrefill (maintClean raw)).map (costFill (maintPrefill (maintClean raw))) =
    maintClean raw
  rw [hpre]
  apply map_eq_self_of_fix
  intro r hr
  rcases hcost : r.cost with _ | c
  · exact costFill_of_all_missing hcost (maintClean_cost_none_all hr hcost)
  · exact costFill_of_some hcost

/-- Each cleaned trip is the image of the first raw row bearing its id. -/
theorem tripsClean_first_occurrence {raw : List RawTrip} {t : RawTrip}
    (h : t ∈ tripsClean raw) :
    ∃ r, raw.find? (fun y => y.trip_id = t.trip_id) = some r ∧ t = tripXform raw r := by
  have hx : ∃ u, u ∈ tripNumFilled (tripStatusFilled (tripsNormed raw)) ∧
      t = tripRecompute u := by
    simp only [tripsClean, List.mem_map] at h
    obtain ⟨u, hu, rfl⟩ := h
    exact ⟨u, (tripsClean_filters_sublist raw).mem hu, rfl⟩
  obtain ⟨u, hu, rfl⟩ := hx
  simp only [tripNumFilled, List.mem_map] at hu
  obtain ⟨v, hv, rfl⟩ := hu
  simp only [tripStatusFilled, List.mem_map] at hv
  obtain ⟨w, hw, rfl⟩ := hv
  simp only [tripsNormed, List.mem_map] at hw
  obtain ⟨r0, hr0, rfl⟩ := hw
  refine ⟨r0, ?_, rfl⟩
  simp only [trip_id_tripRecompute, trip_id_numFillRow, trip_id_statusFillRow,
    trip_id_tripNormalize]
  exact find?_of_mem_dedupBy hr0

/-- Each cleaned station is itself the first raw row bearing its id. -/
theorem stationsClean_first_occurrence {raw : List RawStation} {s : RawStation}
    (h : s ∈ stationsClean raw) :
    raw.find? (fun y => y.station_id = s.station_id) = some s := by
  simp only [stationsClean, List.mem_filter] at h
  exact find?_of_mem_dedupBy h.1.1.1

/-- Each cleaned maintenance row is the image of the first raw row bearing
its id. -/
theorem maintClean_first_occurrence {raw : List RawMaint} {r : RawMaint}
    (h : r ∈ maintClean raw) :
    ∃ r0, raw.find? (fun y => y.record_id = r.record_id) = some r0 ∧
      r = maintXform raw r0 := by
  simp only [maintClean, List.mem_map] at h
  obtain ⟨u, hu, rfl⟩ := h
  have hu0 : u ∈ (dedupBy RawMaint.record_id raw).map maintNormalize :=
    (maintPrefill_sublist raw).mem hu
  rw [List.mem_map] at hu0
  obtain ⟨r0, hr0, rfl⟩ := hu0
  refine ⟨r0, ?_, rfl⟩
  have hkey : (costFill (maintPrefill raw) (maintNormalize r0)).record_id = r0.record_id := by
    rw [(costFill_fields _ _).1, record_id_maintNormalize]
  rw [hkey]
  exact find?_of_mem_dedupBy hr0

/-! ### Statistics facts for the z-score mask -/

theorem listSumQ_nonneg {l : List ℚ} (h : ∀ x ∈ l, 0 ≤ x) : 0 ≤ listSumQ l := by
  induction l with
  | nil => simp [listSumQ]
  | cons a t ih =>
    simp only [listSumQ, List.foldr_cons] at *
    exact add_nonneg (h a (by simp)) (ih (fun x hx => h x (by simp [hx])))

theorem meanQ_nonneg {l : List ℚ} (h : ∀ x ∈ l, 0 ≤ x) : 0 ≤ meanQ l := by
  unfold meanQ
  exact div_nonneg (listSumQ_nonneg h) (by exact_mod_cast Nat.zero_le _)

theorem varQ_nonneg (l : List ℚ) : 0 ≤ varQ l := by
  unfold varQ
  apply meanQ_nonneg
  intro x hx
  obtain ⟨y, _, rfl⟩ := List.mem_map.mp hx
  positivity

theorem listSumQ_replicate (n : Nat) (x : ℚ) : listSumQ (List.replicate n x) = n * x := by
  induction n with
  | zero => simp [listSumQ]
  | succ k ih =>
    simp only [List.replicate_succ, listSumQ, List.foldr_cons] at *
    rw [ih]
    push_cast
    ring

/-- The population variance of a constant vector is zero (hence its
standard deviation is zero). -/
theorem varQ_replicate (n : Nat) (x : ℚ) : varQ (List.replicate n x) = 0 := by
  rcases n with _ | k
  · simp [varQ, meanQ, listSumQ]
  · have hmean : meanQ (List.replicate (k + 1) x) = x := by
      unfold meanQ
      rw [listSumQ_replicate, List.length_replicate]
      field_simp
    unfold varQ
    rw [hmean, List.map_replicate, sub_self]
    unfold meanQ
    rw [show ((0 : ℚ) ^ 2) = 0 by norm_num, listSumQ_replicate]
    simp

theorem length_detect_outliers_zscore (l : List ℚ) (t : ℚ) :
    (detect_outliers_zscore l t).length = l.length := by
  unfold detect_outliers_zscore
  split <;> simp

/-- With a nonzero standard deviation, position `i` of the mask is set
exactly when the absolute z-score of `x_i` reaches the threshold. -/
theorem detect_outliers_zscore_get {l : List ℚ} {t : ℚ} (hv : varQ l ≠ 0) (ht : 0 ≤ t)
    (i : Nat) (h : i < l.length) :
    ((detect_outliers_zscore l t).get
        ⟨i, by rw [length_detect_outliers_zscore]; exact h⟩ = true) ↔
      t ≤ |((l.get ⟨i, h⟩ : ℚ) : ℝ) - (meanQ l : ℝ)| / Real.sqrt (varQ l : ℝ) := by
  have hvpos : (0 : ℝ) < (varQ l : ℝ) := by
    have h0 : (0 : ℝ) ≤ (varQ l : ℝ) := by exact_mod_cast varQ_nonneg l
    rcases lt_or_eq_of_le h0 with h1 | h1
    · exact h1
    · exact absurd (by exact_mod_cast h1.symm) hv
  have hs : 0 < Real.sqrt (varQ l : ℝ) := Real.sqrt_pos.mpr hvpos
  have hs2 : Real.sqrt (varQ l : ℝ) ^ 2 = (varQ l : ℝ) := Real.sq_sqrt hvpos.le
  have hget : (detect_outliers_zscore l t).get
      ⟨i, by rw [length_detect_outliers_zscore]; exact h⟩ =
      (decide (t ≤ 0) ||
        decide (t ^ 2 * varQ l ≤ (l.get ⟨i, h⟩ - meanQ l) ^ 2)) := by
    unfold detect_outliers_zscore
    simp only [if_neg hv, List.get_eq_getElem, List.getElem_map]
  rw [hget]
  simp only [Bool.or_eq_true, decide_eq_true_eq]
  set x : ℚ := l.get ⟨i, h⟩ with hx
  set d : ℝ := (x : ℝ) - (meanQ l : ℝ) with hd
  constructor
  · rintro (h1 | h1)
    · have ht0 : t = 0 := le_antisymm h1 ht
      rw [ht0]
      push_cast
      positivity
    · rw [le_div_iff₀ hs]
      have hsq : ((t : ℝ) * Real.sqrt (varQ l : ℝ)) ^ 2 ≤ |d| ^ 2 := by
        rw [mul_pow, hs2, sq_abs]
        have hcast : (t : ℝ) ^ 2 * (varQ l : ℝ) ≤ d ^ 2 := by
          rw [hd]
          exact_mod_cast h1
        exact hcast
      have htsn : 0 ≤ (t : ℝ) * Real.sqrt (varQ l : ℝ) := by
        apply mul_nonneg _ hs.le
        exact_mod_cast ht
      exact (pow_le_pow_iff_left₀ htsn (abs_nonneg d) (by norm_num)).mp hsq
  · intro h1
    right
    rw [le_div_iff₀ hs] at h1
    have htsn : 0 ≤ (t : ℝ) * Real.sqrt (varQ l : ℝ) := by
      apply mul_nonneg _ hs.le
      exact_mod_cast ht
    have hsq := pow_le_pow_left₀ htsn h1 2
    rw [mul_pow, hs2, sq_abs] at hsq
    have : (t : ℝ) ^ 2 * (varQ l : ℝ) ≤ ((x : ℝ) - (meanQ l : ℝ)) ^ 2 := hsq
    exact_mod_cast this

/-! ### Verification of the specification's claims -/

set_option maxRecDepth 100000

/-- C1: every row of the cleaned trips table satisfies the invariants:
`end_time ≥ start_time`, `distance_km ≥ 0`, `user_type ∈ {casual, member}`,
`bike_type ∈ {classic, electric}`, `status ∈ {completed, cancelled}`, and
`duration_minutes` equals `(end_time − start_time)` in minutes clipped at 0
(hence nonnegative), regardless of the raw input's duration value. -/
theorem cleaned_trip_row_invariants (raw : List RawTrip) (t : RawTrip)
    (h : t ∈ tripsClean raw) :
    ∃ s e, t.start_time = some s ∧ t.end_time = some e ∧ s ≤ e ∧
      (∃ d, t.distance_km = some d ∧ 0 ≤ d) ∧
      t.user_type ∈ [casualT, memberT] ∧ t.bike_type ∈ [classicT, electricT] ∧
      t.status ∈ [completedT, cancelledT] ∧
      t.duration_minutes = some (max 0 (((e - s : Int) : ℚ) / 60)) := by
  obtain ⟨s, e, hs, he, hse, hdur, hd, hu, hb, hst⟩ := tripClean_of_mem h
  exact ⟨s, e, hs, he, hse, hd, hu, hb, hst, hdur⟩

/-- Witness for C1: the concrete trip `exTrip` (raw duration 99, timestamps
600 s apart) survives cleaning as `exTripCleaned` and the theorem applies
to it. -/
theorem cleaned_trip_row_invariants_witness :
    exTripCleaned ∈ tripsClean [exTrip] ∧
      (∃ s e, exTripCleaned.start_time = some s ∧ exTripCleaned.end_time = some e ∧
        s ≤ e ∧ (∃ d, exTripCleaned.distance_km = some d ∧ 0 ≤ d) ∧
        exTripCleaned.user_type ∈ [casualT, memberT] ∧
        exTripCleaned.bike_type ∈ [classicT, electricT] ∧
        exTripCleaned.status ∈ [completedT, cancelledT] ∧
        exTripCleaned.duration_minutes = some (max 0 (((e - s : Int) : ℚ) / 60))) :=
  ⟨of_decide_eq_true (by with_unfolding_all rfl),
   cleaned_trip_row_invariants [exTrip] exTripCleaned
     (of_decide_eq_true (by with_unfolding_all rfl))⟩

/-- C2 counterexample: the precondition check of the analytics queries
(`_trips` / `_stations`) only tests that the attribute `is None`, which
`load_data` already makes false; so after `load_data` and before any
`clean_data` the queries succeed, refuting "fails with a precondition
error when invoked before the cleaning stage has run". -/
theorem query_succeeds_before_cleaning :
    (total_trips_summary (load_data [exTrip] [exStation] [exMaintA] initSys)).isOk = true ∧
    (outlier_trips (load_data [exTrip] [exStation] [exMaintA] initSys) 3).isOk = true ∧
    (revenue_by_user_type (load_data [exTrip] [exStation] [exMaintA] initSys)).isOk
      = true ∧
    (top_start_stations (load_data [exTrip] [exStation] [exMaintA] initSys) 10).isOk
      = true :=
  ⟨rfl, rfl, rfl, rfl⟩

/-- C2 (amended): each analytics query fails with a precondition error
exactly when the table it reads has not been stored by `load_data` (the
check does not require `clean_data` to have run); when the tables are
present the query returns its value together with the unchanged state —
no query mutates the stored tables.  `clean_data` itself succeeds exactly
when all three tables are loaded. -/
theorem queries_precondition_and_purity :
    (∀ (ss : Option (List RawStation)) (mm : Option (List RawMaint)) (n : Nat) (th : ℚ),
      total_trips_summary ⟨none, ss, mm⟩ = .error "Trips not loaded" ∧
      top_start_stations ⟨none, ss, mm⟩ n = .error "Trips not loaded" ∧
      outlier_trips ⟨none, ss, mm⟩ th = .error "Trips not loaded" ∧
      revenue_by_user_type ⟨none, ss, mm⟩ = .error "Trips not loaded" ∧
      bike_utilization_rate ⟨none, ss, mm⟩ = .error "Trips not loaded" ∧
      top_active_users ⟨none, ss, mm⟩ n = .error "Trips not loaded") ∧
    (∀ (t : List RawTrip) (ss : Option (List RawStation)) (mm : Option (List RawMaint))
        (n : Nat) (th : ℚ),
      total_trips_summary ⟨some t, ss, mm⟩ =
        .ok (total_trips_summary_of t, ⟨some t, ss, mm⟩) ∧
      outlier_trips ⟨some t, ss, mm⟩ th = .ok (outlier_trips_of t th, ⟨some t, ss, mm⟩) ∧
      revenue_by_user_type ⟨some t, ss, mm⟩ =
        .ok (revenue_by_user_type_of t, ⟨some t, ss, mm⟩) ∧
      bike_utilization_rate ⟨some t, ss, mm⟩ =
        .ok (bike_utilization_rate_of t, ⟨some t, ss, mm⟩) ∧
      top_active_users ⟨some t, ss, mm⟩ n =
        .ok (top_active_users_of t n, ⟨some t, ss, mm⟩) ∧
      top_start_stations ⟨some t, none, mm⟩ n = .error "Stations not loaded" ∧
      ∀ s, top_start_stations ⟨some t, some s, mm⟩ n =
        .ok (top_start_stations_of t s n, ⟨some t, some s, mm⟩)) ∧
    (∀ st : SysState, (clean_data st).isOk = true ↔
      (st.trips ≠ none ∧ st.stations ≠ none ∧ st.maintenance ≠ none)) := by
  refine ⟨fun ss mm n th => ⟨rfl, rfl, rfl, rfl, rfl, rfl⟩,
    fun t ss mm n th => ⟨rfl, rfl, rfl, rfl, rfl, rfl, fun s => rfl⟩, ?_⟩
  intro st
  obtain ⟨tr, ss, mm⟩ := st
  rcases tr with _ | t <;> rcases ss with _ | s <;> rcases mm with _ | m <;>
    simp [clean_data, Except.isOk, Except.toBool]

/-- C3: `CasualPricing.calculate_cost 10 2 = 1.00 + 0.15·10 + 0.10·2 =
2.70`, `MemberPricing.calculate_cost 10 2 = 0.08·10 + 0.05·2 = 0.90`, and
`PeakHourPricing.calculate_cost` is `1.5 ×` the casual cost on every
input. -/
theorem pricing_strategy_costs :
    CasualPricing.calculate_cost 10 2 = 27 / 10 ∧
    MemberPricing.calculate_cost 10 2 = 9 / 10 ∧
    ∀ d k : ℚ, PeakHourPricing.calculate_cost d k =
      (3 / 2) * CasualPricing.calculate_cost d k := by
  refine ⟨?_, ?_, fun d k => ?_⟩
  · norm_num [CasualPricing.calculate_cost, CasualPricing.UNLOCK_FEE,
      CasualPricing.PER_MINUTE, CasualPricing.PER_KM]
  · norm_num [MemberPricing.calculate_cost, MemberPricing.PER_MINUTE,
      MemberPricing.PER_KM]
  · norm_num [PeakHourPricing.calculate_cost, PeakHourPricing.MULTIPLIER]

/-- C4 counterexample: on `[1, 1, 1, 1, 100]` with threshold 3.0 the mask
is all false — the population std is 39.6 and the z-score of the value 100
is exactly 2.0 < 3.0 (no 5-element vector can reach a population z-score
of 3), so the claim's "the element 100 is flagged" is false on the code. -/
theorem zscore_threshold3_example_all_false :
    detect_outliers_zscore [1, 1, 1, 1, 100] 3 = [false, false, false, false, false] := by
  with_unfolding_all rfl

/-- C4 (amended): when the population standard deviation is zero (variance
zero; in particular any constant or single-element vector) the mask is all
false, of the input's length, with no division; otherwise position `i` is
flagged exactly when `|x_i − mean| / std ≥ threshold`; on
`[1, 1, 1, 1, 100]` with threshold 3.0 nothing is flagged (the z-score of
100 is exactly 2.0), while with threshold 2.0 the element 100 is
flagged. -/
theorem detect_outliers_zscore_spec :
    (∀ (l : List ℚ) (t : ℚ), varQ l = 0 →
      detect_outliers_zscore l t = l.map (fun _ => false)) ∧
    (∀ (x : ℚ) (n : Nat) (t : ℚ),
      detect_outliers_zscore (List.replicate n x) t = List.replicate n false) ∧
    (∀ (l : List ℚ) (t : ℚ), varQ l ≠ 0 → 0 ≤ t → ∀ (i : Nat) (h : i < l.length),
      ((detect_outliers_zscore l t).get
          ⟨i, by rw [length_detect_outliers_zscore]; exact h⟩ = true) ↔
        t ≤ |((l.get ⟨i, h⟩ : ℚ) : ℝ) - (meanQ l : ℝ)| / Real.sqrt (varQ l : ℝ)) ∧
    detect_outliers_zscore [1, 1, 1, 1, 100] 3 = [false, false, false, false, false] ∧
    (detect_outliers_zscore [1, 1, 1, 1, 100] 2).get
      ⟨4, of_decide_eq_true (by with_unfolding_all rfl)⟩ = true := by
  refine ⟨?_, ?_, ?_, by with_unfolding_all rfl, by with_unfolding_all rfl⟩
  · intro l t hv
    unfold detect_outliers_zscore
    rw [if_pos hv]
  · intro x n t
    unfold detect_outliers_zscore
    rw [if_pos (varQ_replicate n x), List.map_replicate]
  · exact fun l t hv ht i h => detect_outliers_zscore_get hv ht i h

/-- Witness for C4: the constant vector `[5, 5]` has variance 0 and an
all-false mask; `[1, 1, 1, 1, 100]` has nonzero variance and at threshold
2.0 position 4 (the value 100) is flagged, so by the characterisation its
absolute z-score is at least 2. -/
theorem detect_outliers_zscore_spec_witness :
    varQ ([5, 5] : List ℚ) = 0 ∧
    detect_outliers_zscore [5, 5] 3 = ([5, 5] : List ℚ).map (fun _ => false) ∧
    varQ ([1, 1, 1, 1, 100] : List ℚ) ≠ 0 ∧
    (2 : ℝ) ≤ |((([1, 1, 1, 1, 100] : List ℚ).get
          ⟨4, of_decide_eq_true (by with_unfolding_all rfl)⟩ : ℚ) : ℝ) -
        (meanQ [1, 1, 1, 1, 100] : ℝ)| / Real.sqrt (varQ [1, 1, 1, 1, 100] : ℝ) :=
  ⟨of_decide_eq_true (by with_unfolding_all rfl),
   detect_outliers_zscore_spec.1 [5, 5] 3 (of_decide_eq_true (by with_unfolding_all rfl)),
   of_decide_eq_true (by with_unfolding_all rfl),
   (detect_outliers_zscore_spec.2.2.1 [1, 1, 1, 1, 100] 2
      (of_decide_eq_true (by with_unfolding_all rfl)) (by norm_num) 4
      (of_decide_eq_true (by with_unfolding_all rfl))).mp
    (of_decide_eq_true (by with_unfolding_all rfl))⟩

/-- C5: `bike_utilization_rate` returns the total trip minutes divided by
(distinct bike count × elapsed window in minutes), returns exactly 0.0
when the bike count is zero or the window is zero or negative, and (being
a total function whose division is guarded) never raises a
division-by-zero error. -/
theorem bike_utilization_rate_spec (df : List RawTrip) :
    (numBikes df = 0 → bike_utilization_rate_of df = some 0) ∧
    (∀ w, windowMinutes df = some w → w ≤ 0 → bike_utilization_rate_of df = some 0) ∧
    (∀ w, windowMinutes df = some w → 0 < w → 0 < numBikes df →
      bike_utilization_rate_of df =
        some (totalUsedMinutes df / (numBikes df * w))) := by
  refine ⟨?_, ?_, ?_⟩
  · intro h
    unfold bike_utilization_rate_of
    rw [if_pos h]
  · intro w hw hle
    unfold bike_utilization_rate_of
    split
    · rfl
    · simp only [hw, if_pos hle]
  · intro w hw hpos hb
    unfold bike_utilization_rate_of
    rw [if_neg (by omega)]
    simp only [hw, if_neg (not_le.mpr hpos)]

/-- Witness for C5: an empty table has zero bikes and rate 0.0; the
one-trip table `[exTrip]` has one bike, a 10-minute window, and rate
`total / (1 × 10)`. -/
theorem bike_utilization_rate_spec_witness :
    bike_utilization_rate_of ([] : List RawTrip) = some 0 ∧
    bike_utilization_rate_of [exTrip] =
      some (totalUsedMinutes [exTrip] / (numBikes [exTrip] * 10)) :=
  ⟨(bike_utilization_rate_spec []).1 (by with_unfolding_all rfl),
   (bike_utilization_rate_spec [exTrip]).2.2 10 (by with_unfolding_all rfl)
     (by norm_num) (by with_unfolding_all decide)⟩

/-- C6: the cleaning pipeline is idempotent — re-cleaning the cleaned
trips, stations and maintenance tables leaves them unchanged, and running
`clean_data` on a state whose tables are the output of `clean_data`
reproduces that state. -/
theorem clean_data_idempotent :
    (∀ rawT, tripsClean (tripsClean rawT) = tripsClean rawT) ∧
    (∀ rawS, stationsClean (stationsClean rawS) = stationsClean rawS) ∧
    (∀ rawM, maintClean (maintClean rawM) = maintClean rawM) ∧
    (∀ st st', clean_data st = .ok st' → clean_data st' = .ok st') := by
  refine ⟨tripsClean_idem, stationsClean_idem, maintClean_idem, ?_⟩
  intro st st' h
  obtain ⟨tr, ss, mm⟩ := st
  rcases tr with _ | t <;> rcases ss with _ | s <;> rcases mm with _ | m <;>
    try exact Except.noConfusion h
  injection h with h2
  rw [← h2]
  show Except.ok (⟨some (tripsClean (tripsClean t)), some (stationsClean (stationsClean s)),
    some (maintClean (maintClean m))⟩ : SysState) = _
  rw [tripsClean_idem, stationsClean_idem, maintClean_idem]

/-- Witness for C6: `clean_data` on the concrete already-cleaned state is
the identity. -/
theorem clean_data_idempotent_witness :
    clean_data ⟨some (tripsClean [exTrip]), some (stationsClean [exStation]),
        some (maintClean [exMaintA])⟩ =
      .ok ⟨some (tripsClean [exTrip]), some (stationsClean [exStation]),
        some (maintClean [exMaintA])⟩ :=
  clean_data_idempotent.2.2.2 ⟨some [exTrip], some [exStation], some [exMaintA]⟩ _ rfl

/-- C7 counterexample: in `tieTrips` user "ub" precedes user "ua" in input
(first-appearance) order and both are tied at 2 trips, yet
`top_active_users` lists "ua" first: `groupby` sorts the
`(user_id, user_type)` group keys before the count sort, so ties follow
sorted-key order, not input iteration order — the claim's "the same stable
tie-break applies to top_active_users" is false. -/
theorem top_active_users_tiebreak_counterexample :
    (dedupBy id (tieTrips.map (fun t => (t.user_id, t.user_type)))).map Prod.fst =
      ["ub".toTxt, "ua".toTxt] ∧
    top_active_users_of tieTrips 2 =
      [("ua".toTxt, "member".toTxt, 2), ("ub".toTxt, "member".toTxt, 2)] :=
  ⟨by with_unfolding_all rfl, by with_unfolding_all rfl⟩

/-- C7 (amended): `top_start_stations` ranks by trip count descending with
ties in input (first-appearance) order — the counts of `value_counts` are
sorted descending and, within any fixed count, the sort is stable with
respect to the first-appearance key list; on counts {a:5, b:3, c:3} with
`b` first in input order, the top 2 are `a` then `b`, with station names
left-joined.  `top_active_users` also ranks by count descending, but its
ties follow the order of `userGroups` — the `(user_id, user_type)` keys
sorted ascending by `groupby` — not input iteration order. -/
theorem ranking_order_spec :
    (∀ keys : List Txt, List.Pairwise (fun a b => b.2 ≤ a.2) (valueCounts keys)) ∧
    (∀ (keys : List Txt) (c : Nat), (valueCounts keys).filter (fun z => z.2 == c) =
      ((dedupBy id keys).map (fun k => (k, keys.count k))).filter (fun z => z.2 == c)) ∧
    (∀ (trips : List RawTrip) (c : Nat),
      List.Pairwise (fun a b => b.2.2 ≤ a.2.2)
        (sortDescBy (fun r => r.2.2) (userGroups trips)) ∧
      (sortDescBy (fun r => r.2.2) (userGroups trips)).filter (fun z => z.2.2 == c) =
        (userGroups trips).filter (fun z => z.2.2 == c)) ∧
    top_start_stations_of exStationTrips exStations 2 =
      [(("a".toTxt), 5, some ("Alpha".toTxt)), (("b".toTxt), 3, some ("Beta".toTxt))] := by
  refine ⟨?_, ?_, ?_, by with_unfolding_all rfl⟩
  · intro keys
    show List.Pairwise (fun a b => b.2 ≤ a.2)
      (sortDescBy Prod.snd ((dedupBy id keys).map (fun k => (k, keys.count k))))
    exact sortDescBy_pairwise Prod.snd _
  · intro keys c
    exact sortDescBy_filter Prod.snd _ c
  · intro trips c
    exact ⟨sortDescBy_pairwise _ _, sortDescBy_filter _ _ c⟩

/-- C8 counterexample: a station row whose name is present but equal to the
empty string survives cleaning unchanged — `dropna` only removes missing
names, and no emptiness check exists — so "station_name is non-empty" fails
on the code. -/
theorem station_empty_name_survives :
    stationsClean [emptyNameStation] = [emptyNameStation] ∧
      emptyNameStation.station_name = some [] :=
  ⟨by with_unfolding_all rfl, rfl⟩

/-- C8 (amended): every row of the cleaned stations table has a present
(non-missing, though possibly empty) station name, a present capacity
strictly greater than 0, a latitude in [−90, 90] and a longitude in
[−180, 180] (and a present station id). -/
theorem cleaned_station_row_invariants (raw : List RawStation) (s : RawStation)
    (h : s ∈ stationsClean raw) :
    s.station_id.isSome ∧ s.station_name.isSome ∧
      (∃ c, s.capacity = some c ∧ 0 < c) ∧
      (∃ la, s.latitude = some la ∧ -90 ≤ la ∧ la ≤ 90) ∧
      (∃ lo, s.longitude = some lo ∧ -180 ≤ lo ∧ lo ≤ 180) :=
  stationClean_of_mem h

/-- Witness for C8: the concrete station `exStation` survives cleaning and
the theorem applies to it. -/
theorem cleaned_station_row_invariants_witness :
    exStation ∈ stationsClean [exStation] ∧
      (exStation.station_id.isSome ∧ exStation.station_name.isSome ∧
        (∃ c, exStation.capacity = some c ∧ 0 < c) ∧
        (∃ la, exStation.latitude = some la ∧ -90 ≤ la ∧ la ≤ 90) ∧
        (∃ lo, exStation.longitude = some lo ∧ -180 ≤ lo ∧ lo ≤ 180)) :=
  ⟨of_decide_eq_true (by with_unfolding_all rfl),
   cleaned_station_row_invariants [exStation] exStation
     (of_decide_eq_true (by with_unfolding_all rfl))⟩

/-- C9: a missing maintenance cost is imputed with the median of the
non-missing costs of its `bike_type` group; when the group has no
non-missing cost at all and the dataset has any non-missing cost, it is
imputed with the dataset-wide median — an actual median value in both
cases (never zero by construction, and no error is raised). -/
theorem maint_cost_imputation (raw : List RawMaint) (r : RawMaint)
    (hr : r ∈ maintPrefill raw) (hc : r.cost = none) :
    (groupCosts (maintPrefill raw) r.bike_type ≠ [] →
      ∃ g, medianQ (groupCosts (maintPrefill raw) r.bike_type) = some g ∧
        costFill (maintPrefill raw) r = { r with cost := some g } ∧
        costFill (maintPrefill raw) r ∈ maintClean raw) ∧
    (groupCosts (maintPrefill raw) r.bike_type = [] →
      (maintPrefill raw).filterMap RawMaint.cost ≠ [] →
      ∃ m, medianQ ((maintPrefill raw).filterMap RawMaint.cost) = some m ∧
        costFill (maintPrefill raw) r = { r with cost := some m } ∧
        costFill (maintPrefill raw) r ∈ maintClean raw) := by
  constructor
  · intro hg
    obtain ⟨g, hgm⟩ := medianQ_isSome hg
    refine ⟨g, hgm, ?_, List.mem_map_of_mem _ hr⟩
    unfold costFill
    rw [hc, hgm]
    rfl
  · intro hg hall
    obtain ⟨m, hm⟩ := medianQ_isSome hall
    refine ⟨m, hm, ?_, List.mem_map_of_mem _ hr⟩
    unfold costFill
    rw [hc, hg, hm]
    rfl

/-- Witness for C9: in `[exMaintA, exMaintB]` the electric group has no
observed cost, and the missing cost of `exMaintB` falls back to the
dataset-wide median (10, from the classic group). -/
theorem maint_cost_imputation_witness :
    ∃ m, medianQ ((maintPrefill [exMaintA, exMaintB]).filterMap RawMaint.cost) = some m ∧
      costFill (maintPrefill [exMaintA, exMaintB]) exMaintB =
        { exMaintB with cost := some m } ∧
      costFill (maintPrefill [exMaintA, exMaintB]) exMaintB ∈
        maintClean [exMaintA, exMaintB] :=
  (maint_cost_imputation [exMaintA, exMaintB] exMaintB
      (of_decide_eq_true (by with_unfolding_all rfl)) rfl).2
    (by with_unfolding_all rfl) (of_decide_eq_true (by with_unfolding_all rfl))

/-- C10: cleaning never creates records — every cleaned row's key already
occurs in the raw table, its row is derived from the first raw occurrence
of that key, keys are pairwise distinct in the cleaned table, and the
cleaned row count never exceeds the raw row count, for trips, stations and
maintenance alike. -/
theorem clean_no_new_records (rawT : List RawTrip) (rawS : List RawStation)
    (rawM : List RawMaint) :
    ((∀ t ∈ tripsClean rawT, ∃ r, rawT.find? (fun y => y.trip_id = t.trip_id) = some r ∧
        r ∈ rawT ∧ t = tripXform rawT r) ∧
      ((tripsClean rawT).map RawTrip.trip_id).Nodup ∧
      (tripsClean rawT).length ≤ rawT.length) ∧
    ((∀ s ∈ stationsClean rawS,
        rawS.find? (fun y => y.station_id = s.station_id) = some s ∧ s ∈ rawS) ∧
      ((stationsClean rawS).map RawStation.station_id).Nodup ∧
      (stationsClean rawS).length ≤ rawS.length) ∧
    ((∀ r ∈ maintClean rawM, ∃ r0,
        rawM.find? (fun y => y.record_id = r.record_id) = some r0 ∧
        r0 ∈ rawM ∧ r = maintXform rawM r0) ∧
      ((maintClean rawM).map RawMaint.record_id).Nodup ∧
      (maintClean rawM).length ≤ rawM.length) := by
  refine ⟨⟨?_, tripsClean_keys_nodup rawT, tripsClean_length_le rawT⟩,
    ⟨?_, stationsClean_keys_nodup rawS, stationsClean_length_le rawS⟩,
    ⟨?_, maintClean_keys_nodup rawM, maintClean_length_le rawM⟩⟩
  · intro t ht
    obtain ⟨r, hf, hx⟩ := tripsClean_first_occurrence ht
    exact ⟨r, hf, List.mem_of_find?_eq_some hf, hx⟩
  · intro s hs
    have hf := stationsClean_first_occurrence hs
    exact ⟨hf, List.mem_of_find?_eq_some hf⟩
  · intro r hr
    obtain ⟨r0, hf, hx⟩ := maintClean_first_occurrence hr
    exact ⟨r0, hf, List.mem_of_find?_eq_some hf, hx⟩

/-- Witness for C10: the cleaned trip `exTripCleaned` traces back to the
first (only) occurrence of its trip id in `[exTrip]`. -/
theorem clean_no_new_records_witness :
    ∃ r, [exTrip].find? (fun y => y.trip_id = exTripCleaned.trip_id) = some r ∧
      r ∈ [exTrip] ∧ exTripCleaned = tripXform [exTrip] r :=
  (clean_no_new_records [exTrip] [exStation] [exMaintA]).1.1 exTripCleaned
    (of_decide_eq_true (by with_unfolding_all rfl))

end CityBike
